import Mathlib

/-!
# SAFER delivery-item lifecycle engine: a shallow embedding

This file embeds the core of the SAFER repository in Lean 4 and proves the
frozen claims about it.  The embedding follows the TypeScript source:

* `desktop/src/preload/preload.ts` (the file-backed item repository:
  `listActiveItems`, `listArchivedItems`, `generateNextId`, `getItem`,
  `saveItem`, `archiveItem`, `deleteItem`, `checkWipLimit`, `getNextWipSlot`);
* `desktop/src/main/main.ts` (the GitHub importer: `fetchItems`,
  `convertGitHubIssue`, `extractPriority`, `GitHubImporter.generateNextId`,
  `GitHubImporter.import`, and `SAFERBridge.updateReview`);
* the git recorder (`commit`);
* `src/commands/review.ts` (weekly review generation).

The file store `data/active/<id>.json` is modelled as a list of items in
which an id names at most one file: writing a file replaces any entry with
the same key and appends the new one; deleting removes the entries with that
key (the file system holds at most one).  The archive
`data/archive/<year>/<month>/<id>.json` is modelled as a list of
`(year, month, item)` entries keyed by the triple `(year, month, id)`.
JavaScript `Date` values are modelled by explicit structures carrying the
fields the code reads (epoch milliseconds, year, month, ISO week, rendered
strings); timestamps are natural numbers (epoch milliseconds).
-/

set_option autoImplicit false

namespace SAFER

/-! ## String and character utilities (JS string operations used by the code) -/

/-- Character equality up to `toLowerCase`, as used by the JS `i` regex flag
and `toLowerCase()` comparisons (ASCII suffices for the strings involved). -/
def lceq (a b : Char) : Bool := a.toLower = b.toLower

/-- Case-insensitive prefix test on character lists. -/
def isPrefCI : List Char → List Char → Bool
  | [], _ => true
  | _ :: _, [] => false
  | p :: ps, c :: cs => lceq p c && isPrefCI ps cs

/-- Case-sensitive prefix test on character lists. -/
def isPrefCS : List Char → List Char → Bool
  | [], _ => true
  | _ :: _, [] => false
  | p :: ps, c :: cs => (p = c : Bool) && isPrefCS ps cs

/-- The suffix following the first case-insensitive occurrence of `pat`, as
matched by a JS regex search: scan left to right, at each position test the
pattern, drop it on success.  `none` when the pattern does not occur. -/
def afterFirstCI (pat : List Char) : List Char → Option (List Char)
  | [] => if pat.isEmpty then some [] else none
  | c :: cs =>
    if isPrefCI pat (c :: cs) then some ((c :: cs).drop pat.length)
    else afterFirstCI pat cs

/-- Case-sensitive first-occurrence test (JS `String.prototype.includes`). -/
def containsCS (pat : List Char) : List Char → Bool
  | [] => pat.isEmpty
  | c :: cs => isPrefCS pat (c :: cs) || containsCS pat cs

/-- JS `string.includes(sub)` on `String`. -/
def strIncludes (s sub : String) : Bool := containsCS sub.data s.data

/-- JS `string.toLowerCase()` (ASCII view). -/
def strLower (s : String) : String := String.mk (s.data.map Char.toLower)

/-- Whitespace characters removed by JS `String.prototype.trim`: the
ECMA-262 WhiteSpace and LineTerminator sets — tab, LF, VT, FF, CR, space,
NBSP, the Ogham space mark, the U+2000 to U+200A spaces, the line and
paragraph separators, the narrow and medium mathematical spaces, the
ideographic space and the byte-order mark. -/
def jsWS (c : Char) : Bool :=
  c = ' ' || c = '\n' || c = '\t' || c = '\r' || c = Char.ofNat 11 || c = Char.ofNat 12 ||
  c = Char.ofNat 160 || c = Char.ofNat 5760 ||
  (8192 ≤ c.toNat && c.toNat ≤ 8202) ||
  c = Char.ofNat 8232 || c = Char.ofNat 8233 || c = Char.ofNat 8239 ||
  c = Char.ofNat 8287 || c = Char.ofNat 12288 || c = Char.ofNat 65279

/-- JS `String.prototype.trim` on character lists. -/
def trimChars (l : List Char) : List Char :=
  ((l.dropWhile jsWS).reverse.dropWhile jsWS).reverse

/-- JS `String.prototype.trim`. -/
def jsTrim (s : String) : String := String.mk (trimChars s.data)

/-- Numeric value of a list of decimal digit characters (JS `parseInt` base 10
on an all-digit string), accumulator form. -/
def digitsVal : List Char → Nat → Nat
  | [], acc => acc
  | c :: cs, acc => digitsVal cs (acc * 10 + (c.toNat - '0'.toNat))

/-- The maximal run of leading decimal digits (the `\d+` part of a match). -/
def takeDigits (l : List Char) : List Char := l.takeWhile Char.isDigit

/-- JS `id.match(/DI-(\d+)/)` followed by `parseInt(match[1], 10)`: the value
of the digit run after the first occurrence of `DI-` that is followed by at
least one digit; `none` when the pattern does not match. -/
def matchDI : List Char → Option Nat
  | 'D' :: 'I' :: '-' :: c :: rest =>
    if c.isDigit then some (digitsVal (takeDigits (c :: rest)) 0)
    else matchDI ('I' :: '-' :: c :: rest)
  | _ :: rest => matchDI rest
  | [] => none

/-- `DI-(\d+)` suffix of an id string, or `0` when there is no match
(`match ? parseInt(match[1], 10) : 0` in the source). -/
def idSuffix (id : String) : Nat := (matchDI id.data).getD 0

/-- Decimal digits, most significant first, with explicit fuel so that the
definition is structural (and so reduces inside the kernel); the fuel is
always instantiated at the number itself, which suffices since `n / 10`
descends. -/
def natDecAuxF : Nat → Nat → List Char
  | _, 0 => []
  | 0, _ + 1 => []
  | fuel + 1, n + 1 => natDecAuxF fuel ((n + 1) / 10) ++ [Nat.digitChar ((n + 1) % 10)]

/-- Decimal digits of a positive natural, most significant first
(the digit list behind JS `String(n)`). -/
def natDecAux (n : Nat) : List Char := natDecAuxF n n

/-- JS `String(n)` for a natural number: its decimal rendering. -/
def natDec (n : Nat) : String :=
  if n = 0 then "0" else String.mk (natDecAux n)

/-- JS `String(n).padStart(3, '0')`. -/
def pad3 (n : Nat) : String :=
  if n < 10 then "00" ++ natDec n
  else if n < 100 then "0" ++ natDec n
  else natDec n

/-- JS `String(n).padStart(2, '0')`. -/
def pad2 (n : Nat) : String :=
  if n < 10 then "0" ++ natDec n else natDec n

/-! ## Data model

`DeliveryItem` keeps the fields of the TypeScript interface that the claims
exercise: `id`, `status`, `created`/`updated` timestamps (epoch
milliseconds), `fence.wipSlot` (flattened to `wipSlot`),
`execute.github.issues` (flattened to `githubIssues`, `[]` when the optional
group is absent), plus `scope.title` and `review.stressLevel` as written by
the importer. -/

structure DeliveryItem where
  id : String
  status : String
  created : Nat
  updated : Nat
  wipSlot : Nat
  githubIssues : List Nat
  title : String
  stressLevel : Nat
  deriving Repr, DecidableEq

/-- The slice of `config.json` the embedded operations read:
`limits.maxWIP`, `git.autoCommit`, `git.commitPrefix` (field `commitTag`
here), `user.email`. -/
structure SaferConfig where
  maxWIP : Nat
  autoCommit : Bool
  commitTag : String
  userEmail : String
  deriving Repr, DecidableEq

/-- The persisted item stores: `data/active/<id>.json` and
`data/archive/<year>/<month>/<id>.json`. -/
structure Store where
  active : List DeliveryItem
  archive : List (Nat × Nat × DeliveryItem)
  deriving Repr, DecidableEq

/-- A JS `Date` as consumed by `archiveItem` and item creation:
`getTime`-style instant, `getFullYear()`, `getMonth() + 1`. -/
structure JsDate where
  time : Nat
  year : Nat
  month : Nat
  deriving Repr, DecidableEq

/-- Writing `data/active/<id>.json`: the file keyed by the item id is
replaced (at most one file per id exists on disk). -/
def fsWriteActive (files : List DeliveryItem) (item : DeliveryItem) : List DeliveryItem :=
  files.filter (fun x => x.id ≠ item.id) ++ [item]

/-- Writing `data/archive/<year>/<month>/<id>.json`. -/
def fsWriteArchive (files : List (Nat × Nat × DeliveryItem)) (y m : Nat)
    (item : DeliveryItem) : List (Nat × Nat × DeliveryItem) :=
  files.filter (fun e => ¬(e.1 = y ∧ e.2.1 = m ∧ e.2.2.id = item.id)) ++ [(y, m, item)]

/-- Stable insertion of `a` into `l` sorted by `le` (used to model
`Array.prototype.sort` with a numeric comparator). -/
def insertBy {α : Type} (le : α → α → Bool) (a : α) : List α → List α
  | [] => [a]
  | b :: bs => if le a b then a :: b :: bs else b :: insertBy le a bs

/-- Sort by a boolean `le` (insertion sort; `Array.prototype.sort`). -/
def sortBy {α : Type} (le : α → α → Bool) : List α → List α
  | [] => []
  | a :: as => insertBy le a (sortBy le as)

/-! ## Item repository (preload.ts) -/

/-- `listActiveItems()`: the active files sorted by
`a.fence.wipSlot - b.fence.wipSlot` ascending. -/
def listActiveItems (s : Store) : List DeliveryItem :=
  sortBy (fun a b => a.wipSlot ≤ b.wipSlot) s.active

/-- `listArchivedItems()`: every archived file across all year/month
partitions, sorted by `updated` descending
(`new Date(b.updated).getTime() - new Date(a.updated).getTime()`). -/
def listArchivedItems (s : Store) : List DeliveryItem :=
  sortBy (fun a b => b.updated ≤ a.updated) (s.archive.map (fun e => e.2.2))

/-- `generateNextId()` (preload.ts:167): scan active plus archived items,
take the `DI-(\d+)` suffix of each id (0 when absent), return
`DI-<max+1>` zero-padded to 3 digits, `DI-001` when no items exist. -/
def generateNextId (s : Store) : String :=
  let allItems := listActiveItems s ++ listArchivedItems s
  if allItems.isEmpty then "DI-001"
  else
    let ids := allItems.map (fun item => idSuffix item.id)
    let maxId := ids.foldl max 0
    "DI-" ++ pad3 (maxId + 1)

/-- The active-store read inside `getItem`: does `data/active/<id>.json`
exist, and what does it hold. -/
def getActive (s : Store) (id : String) : Option DeliveryItem :=
  s.active.find? (fun x => x.id = id)

/-- The archive search inside `getItem`:
`listArchivedItems().find(i => i.id === id)`. -/
def getArchived (s : Store) (id : String) : Option DeliveryItem :=
  (listArchivedItems s).find? (fun x => x.id = id)

/-- `getItem(id)`: check the active store first, then the archive,
`null` when absent from both. -/
def getItem (s : Store) (id : String) : Option DeliveryItem :=
  match getActive s id with
  | some item => some item
  | none => getArchived s id

/-- `saveItem(item)`: set `updated` to now, write `data/active/<id>.json`. -/
def saveItem (s : Store) (item : DeliveryItem) (now : Nat) : Store :=
  { s with active := fsWriteActive s.active { item with updated := now } }

/-- `archiveItem(item)`: set `status` to `archived` and `updated` to now,
write the record under `archive/<year>/<month>/`, then remove the active
file for the id if it exists. -/
def archiveItem (s : Store) (item : DeliveryItem) (now : JsDate) : Store :=
  let item' := { item with status := "archived", updated := now.time }
  { active := s.active.filter (fun x => x.id ≠ item.id),
    archive := fsWriteArchive s.archive now.year now.month item' }

/-- `deleteItem(id)`: remove the active file only; report whether it
existed. -/
def deleteItem (s : Store) (id : String) : Store × Bool :=
  if s.active.any (fun x => x.id = id) then
    ({ s with active := s.active.filter (fun x => x.id ≠ id) }, true)
  else (s, false)

/-- `checkWipLimit()` result record. -/
structure WipCheck where
  isWithinLimit : Bool
  currentWip : Nat
  maxWip : Nat
  deriving Repr, DecidableEq

/-- `checkWipLimit()`: current active count versus `limits.maxWIP`. -/
def checkWipLimit (s : Store) (cfg : SaferConfig) : WipCheck :=
  let currentWip := (listActiveItems s).length
  { isWithinLimit := currentWip < cfg.maxWIP,
    currentWip := currentWip,
    maxWip := cfg.maxWIP }

/-- `getNextWipSlot()` (preload.ts:296): the loop
`for (let slot = 1; slot <= 3; slot++)` returns the first slot in 1..3 not
used by an active item, and falls back to 1.  The scanned range is the
literal constant 3, not the configured `limits.maxWIP`. -/
def getNextWipSlot (s : Store) : Nat :=
  let usedSlots := (listActiveItems s).map (fun item => item.wipSlot)
  if ¬ usedSlots.contains 1 then 1
  else if ¬ usedSlots.contains 2 then 2
  else if ¬ usedSlots.contains 3 then 3
  else 1

/-- Item ids present in the active store. -/
def activeIds (s : Store) : List String := s.active.map (fun x => x.id)

/-- Item ids present anywhere in the archive. -/
def archivedIds (s : Store) : List String := s.archive.map (fun e => e.2.2.id)

/-! ## GitHub importer (main.ts) -/

/-- A GitHub issue as returned by the client list call: `number`, `title`,
`state`, `labels[].name` (flattened to the name list), `user.login`
(field `author`), `html_url`. -/
structure GitHubIssue where
  number : Nat
  title : String
  state : String
  labels : List String
  author : String
  url : String
  deriving Repr, DecidableEq

/-- The importer-neutral `ImportedItem` (`source.id` flattened to
`sourceId`, metadata flattened). -/
structure ImportedItem where
  title : String
  description : String
  sourceId : Nat
  assignee : String
  labels : List String
  status : String
  priority : String
  deriving Repr, DecidableEq

/-- `ImportOptions`; `none` models an absent (undefined) option, for which
destructuring applies the defaults inside `fetchItems`. -/
structure ImportOptions where
  assignedToMe : Option Bool := none
  label : Option String := none
  state : Option String := none
  limit : Option Nat := none
  deriving Repr, DecidableEq

/-- `ImportResult`.  `skipped` is an `Int` because the source arithmetic
`result.skipped += toImportList.length - toImport` is JS number
arithmetic. -/
structure ImportResult where
  success : Bool
  imported : Nat
  skipped : Int
  errors : List String
  items : List DeliveryItem
  deriving Repr, DecidableEq

namespace GitHubImporter

/-- The priority label keywords, in the order the inner loop scans them. -/
def priorityLabels : List String := ["critical", "high", "medium", "low", "urgent"]

/-- `extractPriority(labels)`: for each label in order, the first priority
keyword contained in its lowercasing; `medium` when none matches. -/
def extractPriority (labels : List String) : String :=
  match labels.findSome?
      (fun label => priorityLabels.find? (fun p => strIncludes (strLower label) p)) with
  | some p => p
  | none => "medium"

/-- `extractDescription(issue)`. -/
def extractDescription (issue : GitHubIssue) : String :=
  "GitHub Issue #" ++ natDec issue.number ++ ": " ++ issue.title

/-- `extractUsernameFromConfig(email)`: `email.split('@')[0]`, i.e. the
characters before the first `@`. -/
def extractUsernameFromConfig (email : String) : String :=
  String.mk (email.data.takeWhile (fun c => c ≠ '@'))

/-- `convertGitHubIssue(issue)`. -/
def convertGitHubIssue (issue : GitHubIssue) : ImportedItem :=
  { title := issue.title,
    description := extractDescription issue,
    sourceId := issue.number,
    assignee := issue.author,
    labels := issue.labels,
    status := issue.state,
    priority := extractPriority issue.labels }

/-- `fetchItems(options)` (main.ts:995), with the GitHub client modelled by
the issue list it would return.  The assignee filter in the source is
`issues.filter(issue => true)` with a comment that it imports all and lets
the user filter; the label filter is a case-insensitive exact name match;
`slice(0, limit)` truncates.  An options `label` that is the empty string is
falsy in JS, so no label filter runs. -/
def fetchItems (cfg : SaferConfig) (clientIssues : List GitHubIssue)
    (options : ImportOptions) : List ImportedItem :=
  let assignedToMe := options.assignedToMe.getD false
  let state := options.state.getD "open"
  let limit := options.limit.getD 50
  let issues := if state = "open" ∨ state = "all" then clientIssues else []
  let issues := if assignedToMe then issues.filter (fun _ => true) else issues
  let issues :=
    match options.label with
    | some label =>
      if label ≠ "" then
        issues.filter (fun (issue : GitHubIssue) =>
          issue.labels.any (fun l => strLower l = strLower label))
      else issues
    | none => issues
  let issues := issues.take limit
  let _ := extractUsernameFromConfig cfg.userEmail
  issues.map convertGitHubIssue

/-- The partial delivery item produced by the importer base class.

Modelled from the spec: `convertToDeliveryItem` lives in the importer base
(`importers/base.ts`), which is not among the provided sources — only its
caller is.  Per spec section 4.3 it derives title/description/outcome from
the issue, pre-seeds the DoD, estimates stress from priority or labels
(urgent/critical/high to 4, medium to 3, else 2), takes the given WIP slot,
and records the linked external-issue number (the number the duplicate scan
of step 2 later reads back from `execute.github.issues`). -/
structure PartialItem where
  title : String
  wipSlot : Nat
  githubIssues : List Nat
  stressLevel : Nat
  deriving Repr, DecidableEq

/-- Modelled from the spec: see `PartialItem`. -/
def convertToDeliveryItem (imp : ImportedItem) (wipSlot : Nat) : PartialItem :=
  { title := imp.title,
    wipSlot := wipSlot,
    githubIssues := [imp.sourceId],
    stressLevel :=
      if imp.priority = "urgent" ∨ imp.priority = "critical" ∨ imp.priority = "high" then 4
      else if imp.priority = "medium" then 3
      else 2 }

/-- `GitHubImporter.generateNextId()` (main.ts:1235): scans the ACTIVE store
only (`listActiveItems()`), takes the `DI-(\d+)` suffix of each id (0 when
absent), and returns `DI-<max+1>` zero-padded — unlike the repository
`generateNextId`, it never consults the archive. -/
def generateNextId (s : Store) : String :=
  let items := listActiveItems s
  let existingIds := items.map (fun item => idSuffix item.id)
  let maxId := if existingIds.length > 0 then existingIds.foldl max 0 else 0
  "DI-" ++ pad3 (maxId + 1)

/-- JS decimal rendering of a number that may be negative. -/
def intDec (i : Int) : String :=
  if i < 0 then "-" ++ natDec i.natAbs else natDec i.toNat

/-- main.ts:1163. -/
def wipLimitMsg : String := "WIP limit reached. Complete or archive existing items first."

/-- main.ts:1151. -/
def allImportedMsg : String := "All available issues have already been imported"

/-- main.ts:1171. -/
def capMsg (toImport availableSlots : Int) : String :=
  "Can only import " ++ intDec toImport ++ " items due to WIP limit (" ++
    intDec availableSlots ++ " slots available)"

/-- The per-candidate creation loop (main.ts:1189).  `fail i` injects the
caught per-item failure of iteration `i` (the partial-failure tolerance of
the try/catch around each creation): the error is recorded, `skipped`
incremented, and the loop continues.  On success the item is built from
`convertToDeliveryItem`, given the next importer id, and persisted with
`saveItem`, which writes the active store read by the next
`generateNextId` call.  `importStep` is the success body of one iteration:
the created item and the store after its persistence. -/
def importStep (now : Nat) (cand : ImportedItem) (slot : Nat) (s : Store) :
    DeliveryItem × Store :=
  let part := convertToDeliveryItem cand slot
  let nextId := generateNextId s
  let item : DeliveryItem :=
    { id := nextId, status := "active", created := now, updated := now,
      wipSlot := part.wipSlot, githubIssues := part.githubIssues,
      title := part.title, stressLevel := part.stressLevel }
  (item, saveItem s item now)

/-- The per-candidate creation loop of `import()` (main.ts:1189); see the
doc comment on `importStep` above. -/
def importLoop (now : Nat) (fail : Nat → Bool) :
    List (ImportedItem × Nat) → Nat → Store → ImportResult → ImportResult × Store
  | [], _, s, res => (res, s)
  | (cand, slot) :: rest, i, s, res =>
    if fail i then
      importLoop now fail rest (i + 1) s
        { res with errors := res.errors ++ ["Failed to import item"],
                   skipped := res.skipped + 1 }
    else
      importLoop now fail rest (i + 1) (importStep now cand slot s).2
        { res with items := res.items ++ [(importStep now cand slot s).1],
                   imported := res.imported + 1 }

/-- `GitHubImporter.import(options)` (main.ts:1105): fetch, deduplicate
against the linked issue numbers of active plus archived items, return early
when nothing new, check WIP headroom, cap the batch, pick free slots in
ascending order, then run the creation loop and account the capped-out
candidates as skipped.

The JS slot loop pushes a free slot and then breaks once
`nextSlots.length >= toImport`, so it collects `toImport` free slots when
`toImport >= 1` and a single one otherwise (`max toImport 1` below); when
`toImport <= 0` the creation loop body never runs, so the extra slot is
dead.  `availableSlots` and `toImport` are JS number arithmetic, hence
`Int`. -/
def runImport (s : Store) (cfg : SaferConfig) (clientIssues : List GitHubIssue)
    (options : ImportOptions) (now : Nat) (fail : Nat → Bool) : ImportResult × Store :=
  let fetched := fetchItems cfg clientIssues options
  if fetched.isEmpty then
    ({ success := true, imported := 0, skipped := 0, errors := [], items := [] }, s)
  else
    let allExistingItems := listActiveItems s ++ listArchivedItems s
    let importedGitHubIssues :=
      allExistingItems.foldl (fun acc item => acc ++ item.githubIssues) []
    let newItems := fetched.filter (fun item => ¬ importedGitHubIssues.contains item.sourceId)
    let dupSkipped : Int :=
      (fetched.filter (fun item => importedGitHubIssues.contains item.sourceId)).length
    if newItems.isEmpty then
      ({ success := true, imported := 0, skipped := dupSkipped,
         errors := [allImportedMsg], items := [] }, s)
    else
      let wipCheck := checkWipLimit s cfg
      let availableSlots : Int := (wipCheck.maxWip : Int) - (wipCheck.currentWip : Int)
      if availableSlots = 0 then
        ({ success := false, imported := 0, skipped := dupSkipped,
           errors := [wipLimitMsg], items := [] }, s)
      else
        let toImport : Int := min (newItems.length : Int) availableSlots
        let errs := if toImport < (newItems.length : Int) then [capMsg toImport availableSlots] else []
        let usedSlots := (listActiveItems s).map (fun item => item.wipSlot)
        let freeSlots := ((List.range wipCheck.maxWip).map (· + 1)).filter
          (fun i => ¬ usedSlots.contains i)
        let nextSlots := freeSlots.take (max toImport 1).toNat
        let pairs := (newItems.take toImport.toNat).zip nextSlots
        let start : ImportResult :=
          { success := false, imported := 0, skipped := dupSkipped, errors := errs, items := [] }
        let out := importLoop now fail pairs 0 s start
        let res := out.1
        let res := { res with skipped := res.skipped + ((newItems.length : Int) - toImport) }
        ({ res with success := res.imported > 0 }, out.2)

end GitHubImporter

/-- The linked external-issue numbers appearing on any active or archived
item of a store (what `import()` scans in step 2). -/
def existingLinkedIssues (s : Store) : List Nat :=
  (listActiveItems s ++ listArchivedItems s).foldl (fun acc item => acc ++ item.githubIssues) []

/-- The candidates surviving the duplicate filter of `import()` step 3. -/
def nonDupCandidates (s : Store) (cfg : SaferConfig) (issues : List GitHubIssue)
    (opts : ImportOptions) : List ImportedItem :=
  (GitHubImporter.fetchItems cfg issues opts).filter
    (fun item => ¬ (existingLinkedIssues s).contains item.sourceId)

/-- The candidates dropped by the duplicate filter of `import()` step 3. -/
def dupCandidates (s : Store) (cfg : SaferConfig) (issues : List GitHubIssue)
    (opts : ImportOptions) : List ImportedItem :=
  (GitHubImporter.fetchItems cfg issues opts).filter
    (fun item => (existingLinkedIssues s).contains item.sourceId)

/-- The WIP headroom at call time: configured maximum minus current active
count, as JS number arithmetic. -/
def wipHeadroom (s : Store) (cfg : SaferConfig) : Int :=
  (cfg.maxWIP : Int) - ((listActiveItems s).length : Int)

/-- The main branch of `runImport` (candidates remain and the headroom test
passed), with the stages named through the derived notions above; the
branch characterization `runImport_eq_main` proves it definitionally equal
to what `runImport` computes there. -/
def runImportMain (s : Store) (cfg : SaferConfig) (issues : List GitHubIssue)
    (opts : ImportOptions) (now : Nat) (fail : Nat → Bool) : ImportResult × Store :=
  let newItems := nonDupCandidates s cfg issues opts
  let availableSlots := wipHeadroom s cfg
  let toImport : Int := min (newItems.length : Int) availableSlots
  let errs := if toImport < (newItems.length : Int) then
    [GitHubImporter.capMsg toImport availableSlots] else []
  let usedSlots := (listActiveItems s).map (fun item => item.wipSlot)
  let freeSlots := ((List.range cfg.maxWIP).map (· + 1)).filter
    (fun i => ¬ usedSlots.contains i)
  let nextSlots := freeSlots.take (max toImport 1).toNat
  let pairs := (newItems.take toImport.toNat).zip nextSlots
  let out := GitHubImporter.importLoop now fail pairs 0 s
    { success := false, imported := 0,
      skipped := ((dupCandidates s cfg issues opts).length : Int),
      errors := errs, items := [] }
  let res := { out.1 with skipped := out.1.skipped + ((newItems.length : Int) - toImport) }
  ({ res with success := res.imported > 0 }, out.2)

/-! ## Version control recorder (lib/git.ts `commit`) -/

/-- The git operations the recorder can perform, in order. -/
inductive GitAction where
  | statusQ : GitAction
  | add : List String → GitAction
  | addAll : GitAction
  | commitRec : String → GitAction
  deriving Repr, DecidableEq

/-- `commit(message, files?)`: no git operation at all when
`git.autoCommit` is off; after the status query, silently skip when the
working tree reports no changed files; otherwise stage the given files (all
changes when none given) and commit with the configured prefix prepended.
`statusFiles` models `status.files` of the working tree. -/
def gitCommit (cfg : SaferConfig) (statusFiles : List String) (message : String)
    (files : Option (List String)) : List GitAction :=
  if ¬ cfg.autoCommit then []
  else
    let pre := [GitAction.statusQ]
    if statusFiles.length = 0 then pre
    else
      let addAct :=
        match files with
        | some fs => if fs.length > 0 then GitAction.add fs else GitAction.addAll
        | none => GitAction.addAll
      pre ++ [addAct, GitAction.commitRec (cfg.commitTag ++ " " ++ message)]

/-! ## Weekly review generation (commands/review.ts) and regeneration
(main.ts `SAFERBridge.updateReview`) -/

namespace Review

/-- The apostrophe character, kept out of string literals. -/
def aposC : Char := Char.ofNat 39

/-- The apostrophe as a string. -/
def apos : String := String.mk [aposC]

/-- The `ArchivedItem` shape read by `reviewCommand`: `scope.title`,
`review.stressLevel`, `review.incidents`, `metrics.cycleTime`,
`fence.timeBox.sessions[].duration`, and the ISO week/year of `updated`
(the source computes them with `getWeekNumber`/`getFullYear`). -/
structure ReviewItem where
  id : String
  title : String
  stressLevel : Nat
  incidents : Nat
  cycleTime : Nat
  sessions : List Nat
  updatedWeek : Nat
  updatedYear : Nat
  deriving Repr, DecidableEq

/-- The JS `Date` of a review run, carrying the fields the command reads:
ISO week number and year (`getWeekNumber(now)`, `getFullYear()`), the
`en-GB` locale rendering, and `toISOString()`. -/
structure DateM where
  weekNum : Nat
  year : Nat
  dateStr : String
  iso : String
  deriving Repr, DecidableEq

/-- The five reflection answers (CLI flags, absent ones defaulting to the
empty string through `options.x || ""`). -/
structure Reflections where
  wentWell : String
  didntGoWell : String
  blockers : String
  learnings : String
  adjustments : String
  deriving Repr, DecidableEq

/-- The all-empty answers. -/
def noAnswers : Reflections :=
  { wentWell := "", didntGoWell := "", blockers := "", learnings := "", adjustments := "" }

/-- The week id `YYYY-W##`. -/
def weekIdOf (now : DateM) : String := natDec now.year ++ "-W" ++ pad2 now.weekNum

/-- `getArchivedItemsThisWeek()`: the archived items whose `updated` falls
in the current ISO week of the current year. -/
def archivedThisWeek (archive : List ReviewItem) (now : DateM) : List ReviewItem :=
  archive.filter (fun it => it.updatedWeek = now.weekNum && it.updatedYear = now.year)

/-- `(num / den).toFixed(1)` for naturals with `den > 0`, modelling the JS
double division and formatting as exact-rational rounding half away from
zero (double-precision artifacts on larger values are out of scope). -/
def toFixed1 (num den : Nat) : String :=
  let q := (num * 20 + den) / (2 * den)
  natDec (q / 10) ++ "." ++ natDec (q % 10)

/-- Section headings of the artifact. -/
def hWentWell : String := "What Went Well"

/-- Heading with an apostrophe, assembled to keep the literal clean. -/
def hDidnt : String := "What Didn" ++ apos ++ "t Go Well"

/-- Blockers heading. -/
def hBlockers : String := "Blockers"

/-- Learnings heading. -/
def hLearnings : String := "Key Learnings"

/-- Adjustments heading. -/
def hAdjust : String := "Adjustments for Next Week"

/-- JS `array.join(sep)`. -/
def joinSep (sep : String) : List String → String
  | [] => ""
  | [x] => x
  | x :: xs => x ++ sep ++ joinSep sep xs

/-- The conditional reflection section blocks, in template order
(review.ts:172-188): a `## <heading>` block per non-empty answer. -/
def sectionBlocks (ans : Reflections) : List String :=
  (if ans.wentWell ≠ "" then ["## What Went Well\n\n" ++ ans.wentWell] else []) ++
  (if ans.didntGoWell ≠ "" then ["## " ++ hDidnt ++ "\n\n" ++ ans.didntGoWell] else []) ++
  (if ans.blockers ≠ "" then ["## Blockers\n\n" ++ ans.blockers] else []) ++
  (if ans.learnings ≠ "" then ["## Key Learnings\n\n" ++ ans.learnings] else []) ++
  (if ans.adjustments ≠ "" then ["## Adjustments for Next Week\n\n" ++ ans.adjustments] else [])

/-- `avgStress` of review.ts:90. -/
def avgStressStr (completed : List ReviewItem) : String :=
  if completed.length > 0 then
    toFixed1 ((completed.map (fun it => it.stressLevel)).sum) completed.length
  else "N/A"

/-- `avgCycleTime` of review.ts:97. -/
def avgCycleStr (completed : List ReviewItem) : String :=
  if completed.length > 0 then
    toFixed1 ((completed.map (fun it => it.cycleTime)).sum) completed.length
  else "N/A"

/-- The completed-items block of the template (review.ts:206). -/
def itemsBlockOf (completed : List ReviewItem) : String :=
  if completed.length > 0 then
    joinSep "\n" (completed.map (fun it => "- [" ++ it.id ++ "] " ++ it.title))
  else "_No items completed this week_"

/-- The reflections block of the template (review.ts:208). -/
def reflBlockOf (ans : Reflections) : String :=
  if (sectionBlocks ans).length > 0 then joinSep "\n\n" (sectionBlocks ans)
  else "## Reflections\n\n_No reflections recorded_"

/-- The template up to and including the blank line after the
completed-items list (review.ts:190-206). -/
def headerStr (now : DateM) (completed : List ReviewItem) : String :=
  "# Weekly Review: " ++ weekIdOf now ++ "\n\n**Date:** " ++ now.dateStr ++
    "\n\n## Metrics\n\n| Metric | Value |\n|--------|-------|\n| Items Completed | " ++
    natDec completed.length ++ " |\n| Average Stress | " ++ avgStressStr completed ++
    "/5 |\n| Total Incidents | " ++ natDec ((completed.map (fun it => it.incidents)).sum) ++
    " |\n| Focus Time | " ++ natDec ((completed.map (fun it => it.sessions.sum)).sum) ++
    " minutes |\n| Avg Cycle Time | " ++ avgCycleStr completed ++
    " days |\n\n## Completed Items\n\n" ++ itemsBlockOf completed ++ "\n\n"

/-- The markdown artifact of review.ts:190-212: title, date line, metrics
table, completed-items list, reflection sections (or the default
`## Reflections` block), and the generation footer. -/
def reviewMarkdown (now : DateM) (completed : List ReviewItem) (ans : Reflections) : String :=
  headerStr now completed ++ reflBlockOf ans ++
    "\n\n---\n_Generated by SAFER on " ++ now.iso ++ "_\n"

/-- `reviewCommand` in its non-interactive form (`--yes` plus flags, the
form `updateReview` spawns): compute this week's completed items and
metrics, render the artifact, write `data/reviews/<weekId>.md` (the file
keyed by the week id is replaced). -/
def reviewCommand (reviews : List (String × String)) (archive : List ReviewItem)
    (now : DateM) (ans : Reflections) : List (String × String) :=
  let weekId := weekIdOf now
  let md := reviewMarkdown now (archivedThisWeek archive now) ans
  reviews.filter (fun e => e.1 ≠ weekId) ++ [(weekId, md)]

/-- The default placeholder texts skipped by the extraction. -/
def defaultTexts : List String := ["_No reflections recorded_", "_No response_", "_None_"]

/-- The stop sequences of the extraction lookahead `(?=\n## |\n---|$)`. -/
def captureStops : List (List Char) := [['\n', '#', '#', ' '], ['\n', '-', '-', '-']]

/-- Lazy capture of `([\s\S]*?)` up to the first stop sequence, or to the
end of the content when no stop occurs. -/
def captureUntil : List Char → List Char
  | [] => []
  | c :: cs =>
    if captureStops.any (fun stop => isPrefCS stop (c :: cs)) then []
    else c :: captureUntil cs

/-- `extractSection(heading)` of `updateReview` (main.ts:634): the first
case-insensitive occurrence of `## <heading>\n\n`, capturing lazily up to
`\n## `, `\n---` or the end, trimmed; the default placeholders and a missing
heading give the empty string. -/
def extractSection (content : String) (heading : String) : String :=
  match afterFirstCI ("## " ++ heading ++ "\n\n").data content.data with
  | none => ""
  | some rest =>
    let text := jsTrim (String.mk (captureUntil rest))
    if defaultTexts.contains text then "" else text

/-- Reading `data/reviews/<weekId>.md` (`fs.existsSync` plus read). -/
def lookupReview (reviews : List (String × String)) (weekId : String) : Option String :=
  (reviews.find? (fun e => e.1 = weekId)).map (fun e => e.2)

/-- `SAFERBridge.updateReview(weekId)` composed with the `safer review
--yes` invocation it spawns: parse the existing artifact of `weekId` to
recover the five reflection answers (empty when the file is missing), then
regenerate — the spawned command recomputes metrics and completed items for
the CURRENT week and writes the CURRENT week's file.  The shell round trip
of `createReview` (quote escaping, CLI flags) is modelled as the identity on
the extracted texts; theorems restrict to texts on which it is one. -/
def updateReview (reviews : List (String × String)) (archive : List ReviewItem)
    (now : DateM) (weekId : String) : List (String × String) :=
  let ans : Reflections :=
    match lookupReview reviews weekId with
    | none => noAnswers
    | some content =>
      { wentWell := extractSection content hWentWell,
        didntGoWell := extractSection content hDidnt,
        blockers := extractSection content hBlockers,
        learnings := extractSection content hLearnings,
        adjustments := extractSection content hAdjust }
  reviewCommand reviews archive now ans

end Review

/-! ## Derived notions and concrete fixtures used by the theorems -/

/-- The largest `DI-` suffix over active plus archived items (0 when there
are none or none parse). -/
def maxSuffix (s : Store) : Nat :=
  ((listActiveItems s ++ listArchivedItems s).map (fun it => idSuffix it.id)).foldl max 0

/-- Test fixture: an active-shaped item. -/
def mkItem (id : String) (slot : Nat) (issues : List Nat) : DeliveryItem :=
  { id := id, status := "active", created := 0, updated := 0, wipSlot := slot,
    githubIssues := issues, title := "t", stressLevel := 2 }

/-- Test fixture: a configuration with the given WIP limit. -/
def mkCfg (maxWIP : Nat) : SaferConfig :=
  { maxWIP := maxWIP, autoCommit := true, commitTag := "[SAFER]", userEmail := "alice@x.com" }

/-- Test fixture: an open GitHub issue by author `bob`. -/
def mkIssue (n : Nat) (labels : List String) : GitHubIssue :=
  { number := n, title := "fix the widget", state := "open", labels := labels,
    author := "bob", url := "https://example.com" }

/-! ## Notions for the review-regeneration analysis -/

/-- A chunk of artifact text that the case-insensitive section-pattern
search walks past without a hit, whatever follows it. -/
def SkipChunk (pat ch : List Char) : Prop :=
  ∀ y, afterFirstCI pat (ch ++ y) = afterFirstCI pat y

/-- A text fragment that cannot fake a section boundary: free of newlines
and hashes (week ids, date strings, item ids and titles qualify). -/
abbrev goodLine (t : String) : Prop := ∀ c ∈ t.data, c ≠ '\n' ∧ c ≠ '#'

/-- No character lowercases to `#` (so the case-insensitive pattern search
cannot start a match inside). -/
def hashFreeCI (l : List Char) : Prop := ∀ c ∈ l, c.toLower ≠ '#'

/-- Characters a reflection text must avoid for the regeneration round trip
to be exact: a newline or hash could fake a section boundary; quote,
backslash, dollar and backtick pass through a shell in `createReview`. -/
def badChars : List Char := ['\n', '#', '"', '\\', '$', Char.ofNat 96]

/-- A reflection text the regeneration preserves verbatim: non-empty, free
of `badChars`, not starting or ending in whitespace (the extraction trims),
and not one of the default placeholders. -/
def goodText (t : String) : Prop :=
  t.data ≠ [] ∧ (∀ c ∈ t.data, c ∉ badChars) ∧
  (∀ c, t.data.head? = some c → jsWS c = false) ∧
  (∀ c, t.data.getLast? = some c → jsWS c = false) ∧
  t ∉ Review.defaultTexts

/-- Test fixture: a review date in ISO week 2026-W02. -/
def d0R : Review.DateM :=
  { weekNum := 2, year := 2026, dateStr := "Monday, 5 January 2026",
    iso := "2026-01-05T10:00:00.000Z" }

/-- Test fixture: a later date in the same ISO week. -/
def d1R : Review.DateM :=
  { weekNum := 2, year := 2026, dateStr := "Friday, 9 January 2026",
    iso := "2026-01-09T16:00:00.000Z" }

/-- Test fixture: an archived item completed in week 2026-W02. -/
def riR : Review.ReviewItem :=
  { id := "DI-001", title := "Ship thing", stressLevel := 3, incidents := 1,
    cycleTime := 4, sessions := [30, 60], updatedWeek := 2, updatedYear := 2026 }

/-- Test fixture: reflection answers whose blockers text has leading
whitespace. -/
def ansTrimR : Review.Reflections :=
  { wentWell := "good pace", didntGoWell := "late start", blockers := "  x",
    learnings := "plan first", adjustments := "smaller items" }

/-- Boolean form of `goodText`, evaluable on concrete strings. -/
def goodTextB (t : String) : Bool :=
  (!t.data.isEmpty) &&
  (t.data.all fun c => decide (c ∉ badChars)) &&
  (match t.data.head? with | none => true | some c => !jsWS c) &&
  (match t.data.getLast? with | none => true | some c => !jsWS c) &&
  decide (t ∉ Review.defaultTexts)

/-- A reflection answer the regeneration round trip reproduces exactly: the
flag was absent (empty, so no section is rendered and the re-extraction of
the missing heading returns empty again) or a preserved `goodText`. -/
def okText (t : String) : Prop := t = "" ∨ goodText t

/-- The rendered section block of one answered reflection. -/
def blockOf (hdg t : String) : String := "## " ++ hdg ++ "\n\n" ++ t

/-- The artifact footer after its separating blank line. -/
def footerBody (now : Review.DateM) : String :=
  "---\n_Generated by SAFER on " ++ now.iso ++ "_\n"

/-- The block list the template actually renders: the answered sections, or
the placeholder Reflections block when none is answered. -/
def renderedBlocks (ans : Review.Reflections) : List String :=
  if (Review.sectionBlocks ans).length > 0 then Review.sectionBlocks ans
  else ["## Reflections\n\n_No reflections recorded_"]

/-- The character stream of blocks each followed by a blank line, ending in
a final chunk: the artifact after the header is `tailData blocks footer`. -/
def tailData (L : List String) (fb : List Char) : List Char :=
  L.foldr (fun b acc => b.data ++ ('\n' :: '\n' :: acc)) fb

/-- The per-section renderer behind `sectionBlocks`: a block for a non-empty
answer, nothing otherwise. -/
def blockF : String × String → Option String :=
  fun pr => if pr.2 ≠ "" then some (blockOf pr.1 pr.2) else none

/-- The five headings paired with their answers, in template order. -/
def reviewPairs (ans : Review.Reflections) : List (String × String) :=
  [(Review.hWentWell, ans.wentWell), (Review.hDidnt, ans.didntGoWell),
   (Review.hBlockers, ans.blockers), (Review.hLearnings, ans.learnings),
   (Review.hAdjust, ans.adjustments)]

/-- Test fixture: a date in the earlier ISO week 2025-W50. -/
def d9R : Review.DateM :=
  { weekNum := 50, year := 2025, dateStr := "Monday, 8 December 2025",
    iso := "2025-12-08T10:00:00.000Z" }

/-- Test fixture: partially answered reflections — only Blockers is filled. -/
def ansPartR : Review.Reflections :=
  { wentWell := "", didntGoWell := "", blockers := "ci flakes",
    learnings := "", adjustments := "" }

/-- Test fixture: a review store holding the week 2025-W50 artifact rendered
from `d9R` with the partial answers (no items were completed that week). -/
def reviews1R : List (String × String) :=
  [("2025-W50", Review.reviewMarkdown d9R (Review.archivedThisWeek [riR] d9R) ansPartR)]

/-! ## General lemmas about the sorting and scanning helpers -/

theorem mem_insertBy {α : Type} (le : α → α → Bool) (a x : α) (l : List α) :
    x ∈ insertBy le a l ↔ x = a ∨ x ∈ l := by
  induction l with
  | nil => simp [insertBy]
  | cons b bs ih =>
    simp only [insertBy]
    split
    · simp [List.mem_cons]
    · simp only [List.mem_cons, ih]
      tauto

theorem length_insertBy {α : Type} (le : α → α → Bool) (a : α) (l : List α) :
    (insertBy le a l).length = l.length + 1 := by
  induction l with
  | nil => simp [insertBy]
  | cons b bs ih =>
    simp only [insertBy]
    split <;> simp [ih]

theorem mem_sortBy {α : Type} (le : α → α → Bool) (x : α) (l : List α) :
    x ∈ sortBy le l ↔ x ∈ l := by
  induction l with
  | nil => simp [sortBy]
  | cons b bs ih => simp [sortBy, mem_insertBy, ih]

theorem length_sortBy {α : Type} (le : α → α → Bool) (l : List α) :
    (sortBy le l).length = l.length := by
  induction l with
  | nil => rfl
  | cons b bs ih => simp [sortBy, length_insertBy, ih]

theorem le_foldl_max (l : List Nat) (a : Nat) : a ≤ l.foldl max a := by
  induction l generalizing a with
  | nil => simp
  | cons b bs ih => exact le_trans (Nat.le_max_left a b) (ih (max a b))

theorem mem_le_foldl_max (l : List Nat) (a x : Nat) (hx : x ∈ l) : x ≤ l.foldl max a := by
  induction l generalizing a with
  | nil => cases hx
  | cons b bs ih =>
    rcases List.mem_cons.mp hx with rfl | h
    · exact le_trans (Nat.le_max_right a x) (le_foldl_max bs (max a x))
    · exact ih (max a b) h

theorem find?_eq_some_of_unique {α : Type} (p : α → Bool) (l : List α) (x : α)
    (hm : x ∈ l) (hp : p x = true) (huniq : ∀ y ∈ l, p y = true → y = x) :
    l.find? p = some x := by
  induction l with
  | nil => cases hm
  | cons b bs ih =>
    by_cases hb : p b = true
    · have hbx : b = x := huniq b (List.mem_cons_self b bs) hb
      subst hbx
      exact List.find?_cons_of_pos bs hb
    · have hxbs : x ∈ bs := by
        rcases List.mem_cons.mp hm with rfl | h
        · exact absurd hp hb
        · exact h
      rw [List.find?_cons_of_neg bs (by simpa using hb)]
      exact ih hxbs (fun y hy hpy => huniq y (List.mem_cons_of_mem _ hy) hpy)

theorem find?_some_of_mem {α : Type} (p : α → Bool) (l : List α) (x : α)
    (hm : x ∈ l) (hp : p x = true) :
    ∃ y, l.find? p = some y ∧ p y = true ∧ y ∈ l := by
  cases hfind : l.find? p with
  | none => exact absurd hp (List.find?_eq_none.mp hfind x hm)
  | some y => exact ⟨y, rfl, List.find?_some hfind, List.mem_of_find?_eq_some hfind⟩

/-! ## Decimal rendering and `DI-` parsing lemmas -/

theorem digitChar_toNat (r : Nat) (h : r < 10) :
    (Nat.digitChar r).toNat - Char.toNat '0' = r := by
  interval_cases r <;> decide

theorem digitChar_isDigit (r : Nat) (h : r < 10) : (Nat.digitChar r).isDigit = true := by
  interval_cases r <;> decide

theorem digitsVal_append (l : List Char) (c : Char) (a : Nat) :
    digitsVal (l ++ [c]) a = (digitsVal l a) * 10 + (c.toNat - Char.toNat '0') := by
  induction l generalizing a with
  | nil => simp [digitsVal]
  | cons d ds ih => simp [digitsVal, ih]

theorem natDecAuxF_congr (n : Nat) : ∀ fuel fuel', n ≤ fuel → n ≤ fuel' →
    natDecAuxF fuel n = natDecAuxF fuel' n := by
  induction n using Nat.strong_induction_on with
  | _ n ih =>
    match n with
    | 0 => intro fuel fuel' _ _; cases fuel <;> cases fuel' <;> rfl
    | m + 1 =>
      intro fuel fuel' hf hf'
      match fuel, hf, fuel', hf' with
      | f + 1, _, f' + 1, _ =>
        show natDecAuxF f ((m + 1) / 10) ++ _ = natDecAuxF f' ((m + 1) / 10) ++ _
        have hlt : (m + 1) / 10 < m + 1 := Nat.div_lt_self (Nat.succ_pos m) (by omega)
        rw [ih ((m + 1) / 10) hlt f f' (by omega) (by omega)]

theorem natDecAux_succ (m : Nat) :
    natDecAux (m + 1) = natDecAux ((m + 1) / 10) ++ [Nat.digitChar ((m + 1) % 10)] := by
  show natDecAuxF m ((m + 1) / 10) ++ _ = natDecAuxF ((m + 1) / 10) ((m + 1) / 10) ++ _
  have hlt : (m + 1) / 10 < m + 1 := Nat.div_lt_self (Nat.succ_pos m) (by omega)
  rw [natDecAuxF_congr ((m + 1) / 10) m ((m + 1) / 10) (by omega) (le_refl _)]

theorem natDecAux_digits (n : Nat) : ∀ c ∈ natDecAux n, c.isDigit = true := by
  induction n using Nat.strong_induction_on with
  | _ n ih =>
    match n with
    | 0 => intro c hc; simp [natDecAux, natDecAuxF] at hc
    | m + 1 =>
      intro c hc
      rw [natDecAux_succ] at hc
      rcases List.mem_append.mp hc with h | h
      · exact ih ((m + 1) / 10) (Nat.div_lt_self (Nat.succ_pos m) (by omega)) c h
      · have hc' : c = Nat.digitChar ((m + 1) % 10) := by simpa using h
        subst hc'
        exact digitChar_isDigit _ (Nat.mod_lt _ (by omega))

theorem natDecAux_ne_nil (n : Nat) (h : 0 < n) : natDecAux n ≠ [] := by
  match n, h with
  | m + 1, _ =>
    rw [natDecAux_succ]
    simp

theorem digitsVal_natDecAux (n : Nat) : digitsVal (natDecAux n) 0 = n := by
  induction n using Nat.strong_induction_on with
  | _ n ih =>
    match n with
    | 0 => simp [natDecAux, natDecAuxF, digitsVal]
    | m + 1 =>
      rw [natDecAux_succ, digitsVal_append,
        ih ((m + 1) / 10) (Nat.div_lt_self (Nat.succ_pos m) (by omega)),
        digitChar_toNat _ (Nat.mod_lt _ (by omega))]
      omega

theorem digitsVal_cons_zero (l : List Char) : digitsVal ('0' :: l) 0 = digitsVal l 0 := by
  show digitsVal l (0 * 10 + (Char.toNat '0' - Char.toNat '0')) = digitsVal l 0
  norm_num

theorem natDec_data_digits (n : Nat) : ∀ c ∈ (natDec n).data, c.isDigit = true := by
  unfold natDec
  split
  · intro c hc
    simp only [String.data] at hc
    simp at hc
    subst hc
    decide
  · exact natDecAux_digits n

theorem natDec_data_ne_nil (n : Nat) : (natDec n).data ≠ [] := by
  unfold natDec
  split
  · simp
  · next h => exact natDecAux_ne_nil n (Nat.pos_of_ne_zero h)

theorem digitsVal_natDec (n : Nat) : digitsVal (natDec n).data 0 = n := by
  unfold natDec
  split
  · next h => subst h; decide
  · exact digitsVal_natDecAux n

theorem pad3_data (k : Nat) :
    (pad3 k).data ≠ [] ∧ (∀ c ∈ (pad3 k).data, c.isDigit = true) ∧
    digitsVal (pad3 k).data 0 = k := by
  unfold pad3
  split
  · rw [String.data_append]
    show '0' :: '0' :: (natDec k).data ≠ [] ∧ _ ∧ _
    refine ⟨by simp, ?_, ?_⟩
    · intro c hc
      rcases List.mem_cons.mp hc with rfl | hc
      · decide
      rcases List.mem_cons.mp hc with rfl | hc
      · decide
      · exact natDec_data_digits k c hc
    · show digitsVal ('0' :: '0' :: (natDec k).data) 0 = k
      rw [digitsVal_cons_zero, digitsVal_cons_zero]
      exact digitsVal_natDec k
  split
  · rw [String.data_append]
    show '0' :: (natDec k).data ≠ [] ∧ _ ∧ _
    refine ⟨by simp, ?_, ?_⟩
    · intro c hc
      rcases List.mem_cons.mp hc with rfl | hc
      · decide
      · exact natDec_data_digits k c hc
    · show digitsVal ('0' :: (natDec k).data) 0 = k
      rw [digitsVal_cons_zero]
      exact digitsVal_natDec k
  · exact ⟨natDec_data_ne_nil k, natDec_data_digits k, digitsVal_natDec k⟩

theorem takeDigits_eq_self (l : List Char) (h : ∀ c ∈ l, c.isDigit = true) :
    takeDigits l = l :=
  List.takeWhile_eq_self_iff.mpr h

theorem matchDI_DI (l : List Char) (hne : l ≠ []) (hd : ∀ c ∈ l, c.isDigit = true) :
    matchDI ('D' :: 'I' :: '-' :: l) = some (digitsVal l 0) := by
  match l, hne with
  | c :: rest, _ =>
    have hc : c.isDigit = true := hd c (List.mem_cons_self c rest)
    rw [matchDI]
    rw [takeDigits_eq_self _ hd] at *
    simp [hc, takeDigits_eq_self _ hd]

theorem idSuffix_DI_pad3 (k : Nat) : idSuffix ("DI-" ++ pad3 k) = k := by
  obtain ⟨hne, hdig, hval⟩ := pad3_data k
  unfold idSuffix
  rw [String.data_append]
  show (matchDI ('D' :: 'I' :: '-' :: (pad3 k).data)).getD 0 = k
  rw [matchDI_DI _ hne hdig, hval]
  rfl

/-! ## Repository lemmas -/

theorem mem_listActiveItems (s : Store) (x : DeliveryItem) :
    x ∈ listActiveItems s ↔ x ∈ s.active :=
  mem_sortBy _ x s.active

theorem mem_listArchivedItems (s : Store) (x : DeliveryItem) :
    x ∈ listArchivedItems s ↔ ∃ e ∈ s.archive, e.2.2 = x := by
  unfold listArchivedItems
  rw [mem_sortBy]
  simp [List.mem_map]

theorem mem_archivedIds (s : Store) (id : String) :
    id ∈ archivedIds s ↔ ∃ x ∈ listArchivedItems s, x.id = id := by
  unfold archivedIds
  simp only [List.mem_map]
  constructor
  · rintro ⟨e, he, rfl⟩
    exact ⟨e.2.2, (mem_listArchivedItems s _).mpr ⟨e, he, rfl⟩, rfl⟩
  · rintro ⟨x, hx, rfl⟩
    obtain ⟨e, he, rfl⟩ := (mem_listArchivedItems s x).mp hx
    exact ⟨e, he, rfl⟩

theorem mem_activeIds (s : Store) (id : String) :
    id ∈ activeIds s ↔ ∃ x ∈ s.active, x.id = id := by
  unfold activeIds
  simp [List.mem_map, eq_comm]

theorem generateNextId_eq (s : Store) :
    generateNextId s = "DI-" ++ pad3 (maxSuffix s + 1) := by
  unfold generateNextId maxSuffix
  by_cases h : (listActiveItems s ++ listArchivedItems s).isEmpty
  · rw [List.isEmpty_iff] at h
    simp only [h, List.isEmpty_nil, if_true, List.map_nil, List.foldl_nil]
    decide
  · simp [h]

theorem idSuffix_generateNextId (s : Store) :
    idSuffix (generateNextId s) = maxSuffix s + 1 := by
  rw [generateNextId_eq]
  exact idSuffix_DI_pad3 _

theorem idSuffix_le_maxSuffix (s : Store) (it : DeliveryItem)
    (h : it ∈ s.active ∨ ∃ e ∈ s.archive, e.2.2 = it) :
    idSuffix it.id ≤ maxSuffix s := by
  unfold maxSuffix
  apply mem_le_foldl_max
  rw [List.mem_map]
  refine ⟨it, ?_, rfl⟩
  rw [List.mem_append, mem_listActiveItems, mem_listArchivedItems]
  exact h

/-! ## Claims C3, C4, C6, C10 -/

/-- C3 (amended): `nextId()` scans ids matching the `DI-<n>` pattern across
both the active store and the entire archive and returns the maximal suffix
plus one, zero-padded to 3 digits (`DI-001` when no items exist); its
suffix is strictly greater than the suffix of every existing active or
archived item (in particular the generated id is fresh).  The claim's
never-reused-after-delete part does NOT hold and is dropped: after deleting
the highest-numbered item, `nextId()` recomputes the maximum over the
remaining items only (see the counterexample). -/
theorem nextId_max_plus_one (s : Store) :
    generateNextId s = "DI-" ++ pad3 (maxSuffix s + 1) ∧
    idSuffix (generateNextId s) = maxSuffix s + 1 ∧
    (∀ it : DeliveryItem, (it ∈ s.active ∨ ∃ e ∈ s.archive, e.2.2 = it) →
      idSuffix it.id < idSuffix (generateNextId s)) ∧
    generateNextId s ∉ activeIds s ∧ generateNextId s ∉ archivedIds s ∧
    (s.active = [] ∧ s.archive = [] → generateNextId s = "DI-001") := by
  have hmono : ∀ it : DeliveryItem, (it ∈ s.active ∨ ∃ e ∈ s.archive, e.2.2 = it) →
      idSuffix it.id < idSuffix (generateNextId s) := by
    intro it h
    rw [idSuffix_generateNextId]
    exact Nat.lt_succ_of_le (idSuffix_le_maxSuffix s it h)
  refine ⟨generateNextId_eq s, idSuffix_generateNextId s, hmono, ?_, ?_, ?_⟩
  · intro hmem
    obtain ⟨x, hx, hxid⟩ := (mem_activeIds s _).mp hmem
    have := hmono x (Or.inl hx)
    rw [hxid] at this
    exact lt_irrefl _ this
  · intro hmem
    obtain ⟨x, hx, hxid⟩ := (mem_archivedIds s _).mp hmem
    obtain ⟨e, he, rfl⟩ := (mem_listArchivedItems s x).mp hx
    have := hmono e.2.2 (Or.inr ⟨e, he, rfl⟩)
    rw [hxid] at this
    exact lt_irrefl _ this
  · rintro ⟨ha, hr⟩
    unfold generateNextId
    have : listActiveItems s ++ listArchivedItems s = [] := by
      unfold listActiveItems listArchivedItems
      rw [ha, hr]
      rfl
    simp [this]

/-- C3 witness: at a store holding only `DI-003`, the generated id has a
strictly larger suffix than the existing item. -/
theorem nextId_max_plus_one_witness :
    idSuffix (mkItem "DI-003" 1 []).id <
      idSuffix (generateNextId ⟨[mkItem "DI-003" 1 []], []⟩) :=
  (nextId_max_plus_one ⟨[mkItem "DI-003" 1 []], []⟩).2.2.1 _ (Or.inl (by decide))

/-- C3 counterexample: with `DI-001` archived and `DI-002` active (the
highest numeric suffix), deleting `DI-002` makes `nextId()` return
`DI-002` again — the suffix is reused, not strictly greater than the
deleted one. -/
theorem nextId_reused_after_delete :
    (deleteItem ⟨[mkItem "DI-002" 1 []], [(2026, 1, mkItem "DI-001" 1 [])]⟩ "DI-002").2
      = true ∧
    idSuffix (mkItem "DI-002" 1 []).id = 2 ∧
    generateNextId
      (deleteItem ⟨[mkItem "DI-002" 1 []], [(2026, 1, mkItem "DI-001" 1 [])]⟩ "DI-002").1
      = "DI-002" ∧
    ¬ 2 < idSuffix (generateNextId
      (deleteItem ⟨[mkItem "DI-002" 1 []], [(2026, 1, mkItem "DI-001" 1 [])]⟩ "DI-002").1) := by
  decide

/-- C4 (code bug): `getNextWipSlot()` scans the fixed range 1..3 instead of
the configured `[1, maxWIP]`.  With `maxWIP = 2` and active items occupying
slots 1 and 2 — every slot of `[1, 2]` used — the claim requires the
defensive fallback 1, but the code returns 3, outside the configured
range. -/
theorem getNextWipSlot_fixed_range :
    (mkCfg 2).maxWIP = 2 ∧
    (checkWipLimit ⟨[mkItem "DI-001" 1 [], mkItem "DI-002" 2 []], []⟩ (mkCfg 2)).maxWip = 2 ∧
    getNextWipSlot ⟨[mkItem "DI-001" 1 [], mkItem "DI-002" 2 []], []⟩ = 3 := by
  decide

/-- C6: after `archive(item)`, the item's id is present in the archive
partition and absent from the active store; `get(id)` no longer consults an
active record and answers from the archive (some record carrying this id),
and — whenever the id was not already present in the archive — answers with
exactly the archived copy (status `archived`, `updated` refreshed). -/
theorem archiveItem_exactly_one_store (s : Store) (item : DeliveryItem) (now : JsDate) :
    item.id ∉ activeIds (archiveItem s item now) ∧
    item.id ∈ archivedIds (archiveItem s item now) ∧
    getActive (archiveItem s item now) item.id = none ∧
    (∃ r, getItem (archiveItem s item now) item.id = some r ∧ r.id = item.id) ∧
    (item.id ∉ archivedIds s →
      getItem (archiveItem s item now) item.id =
        some { item with status := "archived", updated := now.time }) := by
  set item' : DeliveryItem := { item with status := "archived", updated := now.time }
    with hitem'
  have hactive : getActive (archiveItem s item now) item.id = none := by
    unfold getActive archiveItem
    rw [List.find?_eq_none]
    intro x hx
    have := (List.mem_filter.mp hx).2
    simp only [decide_not, Bool.not_eq_true', decide_eq_false_iff_not] at this
    simpa using this
  have hinarch : item.id ∈ archivedIds (archiveItem s item now) := by
    rw [mem_archivedIds]
    refine ⟨item', ?_, rfl⟩
    rw [mem_listArchivedItems]
    exact ⟨(now.year, now.month, item'), by
      unfold archiveItem fsWriteArchive
      simp, rfl⟩
  refine ⟨?_, hinarch, hactive, ?_, ?_⟩
  · intro hmem
    obtain ⟨x, hx, hxid⟩ := (mem_activeIds _ _).mp hmem
    unfold archiveItem at hx
    have := (List.mem_filter.mp hx).2
    simp only [decide_not, Bool.not_eq_true', decide_eq_false_iff_not] at this
    exact this hxid
  · obtain ⟨x, hx, hxid⟩ := (mem_archivedIds _ _).mp hinarch
    obtain ⟨y, hy, hpy, hymem⟩ :=
      find?_some_of_mem (fun z => z.id = item.id) (listArchivedItems (archiveItem s item now))
        x hx (by simpa using hxid)
    refine ⟨y, ?_, by simpa using hpy⟩
    unfold getItem
    rw [hactive]
    exact hy
  · intro hnot
    unfold getItem
    rw [hactive]
    unfold getArchived
    rw [find?_eq_some_of_unique (fun z => z.id = item.id) _ item']
    · rw [mem_listArchivedItems]
      refine ⟨(now.year, now.month, item'), ?_, rfl⟩
      unfold archiveItem fsWriteArchive
      simp
    · simp [hitem']
    · intro y hy hpy
      obtain ⟨e, he, rfl⟩ := (mem_listArchivedItems _ y).mp hy
      unfold archiveItem fsWriteArchive at he
      rcases List.mem_append.mp he with hf | hnew
      · exfalso
        apply hnot
        rw [mem_archivedIds]
        have : e ∈ s.archive := List.mem_of_mem_filter hf
        refine ⟨e.2.2, (mem_listArchivedItems s _).mpr ⟨e, this, rfl⟩, by simpa using hpy⟩
      · have : e = (now.year, now.month, item') := by simpa using hnew
        rw [this]

/-- C6 witness: archiving a concrete item out of a store that never had its
id archived yields exactly the archived copy on `get`. -/
theorem archiveItem_exactly_one_store_witness :
    getItem (archiveItem ⟨[mkItem "DI-001" 1 []], []⟩ (mkItem "DI-001" 1 []) ⟨5, 2026, 1⟩)
        (mkItem "DI-001" 1 []).id =
      some { mkItem "DI-001" 1 [] with status := "archived", updated := 5 } :=
  (archiveItem_exactly_one_store ⟨[mkItem "DI-001" 1 []], []⟩ (mkItem "DI-001" 1 [])
    ⟨5, 2026, 1⟩).2.2.2.2 (by decide)

/-- C10: `get(id)` consults the active store first — when the id has an
active record, the result is that active copy (the archived copy, if any,
is shadowed); when no active record exists the archive search answers; and
`null` comes back exactly when the id is absent from both stores. -/
theorem getItem_active_shadows_archive (s : Store) (id : String) :
    (id ∈ activeIds s → ∃ r, getItem s id = some r ∧ r ∈ s.active ∧ r.id = id) ∧
    (id ∉ activeIds s → getItem s id = getArchived s id) ∧
    (getItem s id = none ↔ id ∉ activeIds s ∧ id ∉ archivedIds s) := by
  have hnone : id ∉ activeIds s → getActive s id = none := by
    intro h
    unfold getActive
    rw [List.find?_eq_none]
    intro x hx
    simp only [decide_eq_true_eq]
    intro hxid
    exact h ((mem_activeIds s id).mpr ⟨x, hx, hxid⟩)
  refine ⟨?_, ?_, ?_⟩
  · intro hmem
    obtain ⟨x, hx, hxid⟩ := (mem_activeIds s id).mp hmem
    obtain ⟨y, hy, hpy, hymem⟩ :=
      find?_some_of_mem (fun z => z.id = id) s.active x hx (by simpa using hxid)
    refine ⟨y, ?_, hymem, by simpa using hpy⟩
    unfold getItem getActive
    rw [hy]
  · intro hmem
    unfold getItem
    rw [hnone hmem]
  · constructor
    · intro hget
      unfold getItem at hget
      rcases hact : getActive s id with _ | r
      · rw [hact] at hget
        constructor
        · intro hmem
          obtain ⟨x, hx, hxid⟩ := (mem_activeIds s id).mp hmem
          unfold getActive at hact
          exact absurd hxid (by simpa using List.find?_eq_none.mp hact x hx)
        · intro hmem
          obtain ⟨x, hx, hxid⟩ := (mem_archivedIds s id).mp hmem
          unfold getArchived at hget
          exact absurd hxid (by simpa using List.find?_eq_none.mp hget x hx)
      · rw [hact] at hget
        cases hget
    · rintro ⟨hact, harch⟩
      unfold getItem
      rw [hnone hact]
      unfold getArchived
      rw [List.find?_eq_none]
      intro x hx
      simp only [decide_eq_true_eq]
      intro hxid
      exact harch ((mem_archivedIds s id).mpr ⟨x, hx, hxid⟩)

/-- C10 witness: with the same id in both stores (the state the documented
crash gap can produce), `get` returns the active copy (slot 1), not the
archived one (slot 2). -/
theorem getItem_active_shadows_archive_witness :
    ∃ r, getItem ⟨[mkItem "DI-001" 1 []], [(2026, 1, mkItem "DI-001" 2 [])]⟩ "DI-001"
        = some r ∧
      r ∈ ({ active := [mkItem "DI-001" 1 []],
             archive := [(2026, 1, mkItem "DI-001" 2 [])] } : Store).active ∧
      r.id = "DI-001" :=
  (getItem_active_shadows_archive
    ⟨[mkItem "DI-001" 1 []], [(2026, 1, mkItem "DI-001" 2 [])]⟩ "DI-001").1 (by decide)

/-! ## Import loop lemmas -/

theorem importLoop_skipped_mono (now : Nat) (fail : Nat → Bool)
    (pairs : List (ImportedItem × Nat)) : ∀ (i : Nat) (s : Store) (res : ImportResult),
    res.skipped ≤ (GitHubImporter.importLoop now fail pairs i s res).1.skipped := by
  induction pairs with
  | nil => intro i s res; simp [GitHubImporter.importLoop]
  | cons p rest ih =>
    obtain ⟨cand, slot⟩ := p
    intro i s res
    simp only [GitHubImporter.importLoop]
    by_cases hf : fail i = true
    · rw [if_pos hf]
      exact le_trans (by simp) (ih _ _ _)
    · rw [if_neg hf]
      exact ih _ _ _

theorem importLoop_errors_mono (now : Nat) (fail : Nat → Bool)
    (pairs : List (ImportedItem × Nat)) (e : String) :
    ∀ (i : Nat) (s : Store) (res : ImportResult), e ∈ res.errors →
    e ∈ (GitHubImporter.importLoop now fail pairs i s res).1.errors := by
  induction pairs with
  | nil => intro i s res he; simpa [GitHubImporter.importLoop] using he
  | cons p rest ih =>
    obtain ⟨cand, slot⟩ := p
    intro i s res he
    simp only [GitHubImporter.importLoop]
    by_cases hf : fail i = true
    · rw [if_pos hf]
      exact ih _ _ _ (by simp [he])
    · rw [if_neg hf]
      exact ih _ _ _ he

theorem importLoop_counts (now : Nat) (fail : Nat → Bool)
    (pairs : List (ImportedItem × Nat)) : ∀ (i : Nat) (s : Store) (res : ImportResult),
    res.items.length = res.imported →
    (GitHubImporter.importLoop now fail pairs i s res).1.items.length =
      (GitHubImporter.importLoop now fail pairs i s res).1.imported ∧
    (GitHubImporter.importLoop now fail pairs i s res).1.imported ≤
      res.imported + pairs.length := by
  induction pairs with
  | nil =>
    intro i s res h
    simp only [GitHubImporter.importLoop]
    exact ⟨h, by simp⟩
  | cons p rest ih =>
    obtain ⟨cand, slot⟩ := p
    intro i s res h
    simp only [GitHubImporter.importLoop]
    by_cases hf : fail i = true
    · rw [if_pos hf]
      obtain ⟨h1, h2⟩ := ih (i + 1) s
        { res with errors := res.errors ++ ["Failed to import item"],
                   skipped := res.skipped + 1 } h
      exact ⟨h1, le_trans h2 (by simp [List.length_cons])⟩
    · rw [if_neg hf]
      obtain ⟨h1, h2⟩ := ih (i + 1) (GitHubImporter.importStep now cand slot s).2
        { res with items := res.items ++ [(GitHubImporter.importStep now cand slot s).1],
                   imported := res.imported + 1 } (by simp [h])
      refine ⟨h1, le_trans h2 ?_⟩
      simp only [List.length_cons]
      omega

theorem importLoop_items_src (now : Nat) (fail : Nat → Bool)
    (pairs : List (ImportedItem × Nat)) : ∀ (i : Nat) (s : Store) (res : ImportResult),
    ∀ it ∈ (GitHubImporter.importLoop now fail pairs i s res).1.items,
      it ∈ res.items ∨ ∃ p ∈ pairs, it.githubIssues = [p.1.sourceId] := by
  induction pairs with
  | nil =>
    intro i s res it hit
    exact Or.inl (by simpa [GitHubImporter.importLoop] using hit)
  | cons p rest ih =>
    obtain ⟨cand, slot⟩ := p
    intro i s res it hit
    simp only [GitHubImporter.importLoop] at hit
    by_cases hf : fail i = true
    · rw [if_pos hf] at hit
      rcases ih _ _ _ it hit with hmem | ⟨q, hq, hqe⟩
      · exact Or.inl (by simpa using hmem)
      · exact Or.inr ⟨q, List.mem_cons_of_mem _ hq, hqe⟩
    · rw [if_neg hf] at hit
      rcases ih _ _ _ it hit with hmem | ⟨q, hq, hqe⟩
      · have hmem' : it ∈ res.items ∨ it = (GitHubImporter.importStep now cand slot s).1 := by
          simpa using hmem
        rcases hmem' with hold | rfl
        · exact Or.inl hold
        · exact Or.inr ⟨(cand, slot), List.mem_cons_self _ _, rfl⟩
      · exact Or.inr ⟨q, List.mem_cons_of_mem _ hq, hqe⟩

/-! ## Claims C9, C8, C5 -/

/-- C9: the recorder's `commit(message)` performs no git operation at all
when auto-commit is disabled; with auto-commit on and no changed files it
stops after the status query (the commit is silently skipped); otherwise it
runs exactly status, one staging action (the given files, or everything),
and a commit whose message is the configured prefix, a space, and the
message. -/
theorem gitCommit_spec (cfg : SaferConfig) (statusFiles : List String) (message : String)
    (files : Option (List String)) :
    (cfg.autoCommit = false → gitCommit cfg statusFiles message files = []) ∧
    (cfg.autoCommit = true → statusFiles = [] →
      gitCommit cfg statusFiles message files = [GitAction.statusQ]) ∧
    (cfg.autoCommit = true → statusFiles ≠ [] →
      ∃ stage, (stage = GitAction.addAll ∨ ∃ fs, stage = GitAction.add fs) ∧
        gitCommit cfg statusFiles message files =
          [GitAction.statusQ, stage,
           GitAction.commitRec (cfg.commitTag ++ " " ++ message)]) := by
  refine ⟨?_, ?_, ?_⟩
  · intro h
    unfold gitCommit
    rw [if_pos (by simp [h])]
  · intro h hempty
    unfold gitCommit
    rw [if_neg (by simp [h]), if_pos (by simp [hempty])]
  · intro h hne
    unfold gitCommit
    rw [if_neg (by simp [h]), if_neg (by simpa using hne)]
    cases files with
    | none => exact ⟨GitAction.addAll, Or.inl rfl, rfl⟩
    | some fs =>
      by_cases hfs : fs.length > 0
      · exact ⟨GitAction.add fs, Or.inr ⟨fs, rfl⟩, by simp [hfs]⟩
      · exact ⟨GitAction.addAll, Or.inl rfl, by simp [hfs]⟩

/-- C9 witness: with auto-commit on and one changed file, the recorder
stages and commits with the prefixed message. -/
theorem gitCommit_spec_witness :
    ∃ stage, (stage = GitAction.addAll ∨ ∃ fs, stage = GitAction.add fs) ∧
      gitCommit (mkCfg 3) ["data/active/DI-001.json"] "saved" none =
        [GitAction.statusQ, stage,
         GitAction.commitRec ((mkCfg 3).commitTag ++ " " ++ "saved")] :=
  (gitCommit_spec (mkCfg 3) ["data/active/DI-001.json"] "saved" none).2.2 rfl (by simp)

/-- C8 counterexample: with `assignedToMe` requested, an issue authored
by (and not assigned to) `bob` — while the configured user is `alice` —
still survives the assignee filter and is returned: the filter callback
returns `true` unconditionally. -/
theorem fetchItems_assignee_filter_noop :
    GitHubImporter.extractUsernameFromConfig (mkCfg 3).userEmail = "alice" ∧
    (mkIssue 1 []).author = "bob" ∧
    (GitHubImporter.fetchItems (mkCfg 3) [mkIssue 1 []]
        { assignedToMe := some true }).map (fun i => i.sourceId) = [1] := by
  decide

/-- C8 (amended): `fetchItems` truncates to `limit` and applies the label
filter client-side (an issue survives only if one of its labels matches the
requested label case-insensitively); the assignee filter, however, is a
no-op — requesting `assignedToMe` returns exactly what not requesting it
returns, regardless of the configured user. -/
theorem fetchItems_spec (cfg : SaferConfig) (issues : List GitHubIssue)
    (opts : ImportOptions) :
    (GitHubImporter.fetchItems cfg issues opts).length ≤ opts.limit.getD 50 ∧
    (∀ lab, opts.label = some lab → lab ≠ "" →
      ∀ it ∈ GitHubImporter.fetchItems cfg issues opts,
        ∃ issue ∈ issues, it = GitHubImporter.convertGitHubIssue issue ∧
          issue.labels.any (fun l => strLower l = strLower lab) = true) ∧
    GitHubImporter.fetchItems cfg issues { opts with assignedToMe := some true } =
      GitHubImporter.fetchItems cfg issues { opts with assignedToMe := some false } := by
  refine ⟨?_, ?_, ?_⟩
  · simp only [GitHubImporter.fetchItems, List.length_map]
    exact List.length_take_le _ _
  · intro lab hlab hne it hit
    simp only [GitHubImporter.fetchItems, hlab] at hit
    rw [if_pos hne] at hit
    obtain ⟨issue, hissue, rfl⟩ := List.mem_map.mp hit
    have h1 := List.mem_of_mem_take hissue
    have hprop := (List.mem_filter.mp h1).2
    have h2 := List.mem_of_mem_filter h1
    have h3 : issue ∈ (if opts.state.getD "open" = "open" ∨ opts.state.getD "open" = "all"
        then issues else []) := by
      by_cases ha : opts.assignedToMe.getD false = true
      · rw [if_pos ha] at h2
        exact List.mem_of_mem_filter h2
      · rw [if_neg ha] at h2
        exact h2
    have h4 : issue ∈ issues := by
      by_cases hs : opts.state.getD "open" = "open" ∨ opts.state.getD "open" = "all"
      · rw [if_pos hs] at h3
        exact h3
      · rw [if_neg hs] at h3
        cases h3
    exact ⟨issue, h4, rfl, hprop⟩
  · unfold GitHubImporter.fetchItems
    simp [List.filter_true]

/-- C8 witness for the amended claim: a `Bug`-labelled issue survives the
case-insensitive label filter. -/
theorem fetchItems_spec_witness :
    ∃ issue ∈ [mkIssue 1 ["bug"], mkIssue 2 []],
      GitHubImporter.convertGitHubIssue (mkIssue 1 ["bug"]) =
        GitHubImporter.convertGitHubIssue issue ∧
      issue.labels.any (fun l => strLower l = strLower "Bug") = true :=
  (fetchItems_spec (mkCfg 3) [mkIssue 1 ["bug"], mkIssue 2 []]
      { label := some "Bug" }).2.1 "Bug" rfl (by decide)
    (GitHubImporter.convertGitHubIssue (mkIssue 1 ["bug"])) (by decide)

/-- C5 (code bug): the importer's `generateNextId` scans only the active
store, so a batch-created item can collide with an archived id.  With
`DI-001` in the archive (linked to issue 1), an empty active store, and one
new candidate (issue 2), `import()` creates an item with id `DI-001` — the
id of the archived item. -/
theorem import_id_collides_with_archive :
    (GitHubImporter.runImport ⟨[], [(2026, 1, mkItem "DI-001" 1 [1])]⟩ (mkCfg 3)
        [mkIssue 2 []] {} 0 (fun _ => false)).1.items.map (fun it => it.id) = ["DI-001"] ∧
    "DI-001" ∈ archivedIds ⟨[], [(2026, 1, mkItem "DI-001" 1 [1])]⟩ := by
  decide

/-! ## `runImport` branch characterizations -/

theorem runImport_eq_of_empty (s : Store) (cfg : SaferConfig) (issues : List GitHubIssue)
    (opts : ImportOptions) (now : Nat) (fail : Nat → Bool)
    (h : GitHubImporter.fetchItems cfg issues opts = []) :
    GitHubImporter.runImport s cfg issues opts now fail =
      ({ success := true, imported := 0, skipped := 0, errors := [], items := [] }, s) := by
  simp only [GitHubImporter.runImport]
  rw [if_pos (by simp [h])]

theorem runImport_eq_of_allDup (s : Store) (cfg : SaferConfig) (issues : List GitHubIssue)
    (opts : ImportOptions) (now : Nat) (fail : Nat → Bool)
    (h1 : GitHubImporter.fetchItems cfg issues opts ≠ [])
    (h2 : nonDupCandidates s cfg issues opts = []) :
    GitHubImporter.runImport s cfg issues opts now fail =
      ({ success := true, imported := 0,
         skipped := ((dupCandidates s cfg issues opts).length : Int),
         errors := [GitHubImporter.allImportedMsg], items := [] }, s) := by
  unfold nonDupCandidates existingLinkedIssues at h2
  simp only [GitHubImporter.runImport]
  rw [if_neg (by rw [List.isEmpty_iff]; exact h1), if_pos (by rw [List.isEmpty_iff]; exact h2)]
  unfold dupCandidates existingLinkedIssues
  rfl

theorem fetch_ne_nil_of_nonDup_ne_nil (s : Store) (cfg : SaferConfig)
    (issues : List GitHubIssue) (opts : ImportOptions)
    (h1 : nonDupCandidates s cfg issues opts ≠ []) :
    GitHubImporter.fetchItems cfg issues opts ≠ [] := by
  intro h
  apply h1
  unfold nonDupCandidates
  rw [h]
  rfl

theorem runImport_eq_of_wipZero (s : Store) (cfg : SaferConfig) (issues : List GitHubIssue)
    (opts : ImportOptions) (now : Nat) (fail : Nat → Bool)
    (h1 : nonDupCandidates s cfg issues opts ≠ [])
    (h2 : wipHeadroom s cfg = 0) :
    GitHubImporter.runImport s cfg issues opts now fail =
      ({ success := false, imported := 0,
         skipped := ((dupCandidates s cfg issues opts).length : Int),
         errors := [GitHubImporter.wipLimitMsg], items := [] }, s) := by
  have hfetch := fetch_ne_nil_of_nonDup_ne_nil s cfg issues opts h1
  unfold nonDupCandidates existingLinkedIssues at h1
  unfold wipHeadroom at h2
  simp only [GitHubImporter.runImport]
  rw [if_neg (by rw [List.isEmpty_iff]; exact hfetch),
    if_neg (by rw [List.isEmpty_iff]; exact h1),
    if_pos (show ((checkWipLimit s cfg).maxWip : Int) -
      ((checkWipLimit s cfg).currentWip : Int) = 0 from h2)]
  unfold dupCandidates existingLinkedIssues
  rfl

theorem runImport_eq_main (s : Store) (cfg : SaferConfig) (issues : List GitHubIssue)
    (opts : ImportOptions) (now : Nat) (fail : Nat → Bool)
    (h1 : nonDupCandidates s cfg issues opts ≠ [])
    (h2 : wipHeadroom s cfg ≠ 0) :
    GitHubImporter.runImport s cfg issues opts now fail =
      runImportMain s cfg issues opts now fail := by
  have hfetch := fetch_ne_nil_of_nonDup_ne_nil s cfg issues opts h1
  unfold nonDupCandidates existingLinkedIssues at h1
  unfold wipHeadroom at h2
  simp only [GitHubImporter.runImport]
  rw [if_neg (by rw [List.isEmpty_iff]; exact hfetch),
    if_neg (by rw [List.isEmpty_iff]; exact h1),
    if_neg (show ¬ ((checkWipLimit s cfg).maxWip : Int) -
      ((checkWipLimit s cfg).currentWip : Int) = 0 from h2)]
  unfold runImportMain nonDupCandidates dupCandidates existingLinkedIssues wipHeadroom
  rfl

/-! ## Claims C2 and C1 -/

/-- C2 counterexample: with WIP headroom zero but nothing fetched, the call
returns success with no error recorded — the claim's demand that a
zero-headroom call fail with `WipLimitExceeded` does not hold when no
non-duplicate candidate remains (the empty-fetch and all-duplicates returns
run before the headroom check). -/
theorem import_wip_zero_without_candidates_succeeds :
    wipHeadroom ⟨[mkItem "DI-001" 1 []], []⟩ (mkCfg 1) = 0 ∧
    (GitHubImporter.runImport ⟨[mkItem "DI-001" 1 []], []⟩ (mkCfg 1) [] {} 0
      (fun _ => false)).1.success = true ∧
    (GitHubImporter.runImport ⟨[mkItem "DI-001" 1 []], []⟩ (mkCfg 1) [] {} 0
      (fun _ => false)).1.errors = [] := by
  decide

/-- C2 (amended): when at least one non-duplicate candidate remains and the
WIP headroom is zero, `import()` fails (success false, `WipLimitExceeded`
error recorded) and creates no items; when the headroom is positive, the
number of items created never exceeds `min(non-duplicate candidates,
headroom)`, and when the candidate list is capped (headroom below the
candidate count) the warning stating the cap and reason is recorded. -/
theorem import_caps_at_headroom (s : Store) (cfg : SaferConfig) (issues : List GitHubIssue)
    (opts : ImportOptions) (now : Nat) (fail : Nat → Bool) :
    (wipHeadroom s cfg = 0 → nonDupCandidates s cfg issues opts ≠ [] →
      (GitHubImporter.runImport s cfg issues opts now fail).1.success = false ∧
      (GitHubImporter.runImport s cfg issues opts now fail).1.imported = 0 ∧
      (GitHubImporter.runImport s cfg issues opts now fail).1.items = [] ∧
      GitHubImporter.wipLimitMsg ∈
        (GitHubImporter.runImport s cfg issues opts now fail).1.errors) ∧
    (0 < wipHeadroom s cfg →
      ((GitHubImporter.runImport s cfg issues opts now fail).1.imported : Int) ≤
        min ((nonDupCandidates s cfg issues opts).length : Int) (wipHeadroom s cfg) ∧
      (GitHubImporter.runImport s cfg issues opts now fail).1.items.length =
        (GitHubImporter.runImport s cfg issues opts now fail).1.imported ∧
      (wipHeadroom s cfg < ((nonDupCandidates s cfg issues opts).length : Int) →
        GitHubImporter.capMsg
            (min ((nonDupCandidates s cfg issues opts).length : Int) (wipHeadroom s cfg))
            (wipHeadroom s cfg) ∈
          (GitHubImporter.runImport s cfg issues opts now fail).1.errors)) := by
  constructor
  · intro h0 hne
    rw [runImport_eq_of_wipZero s cfg issues opts now fail hne h0]
    simp
  · intro hpos
    by_cases hnd : nonDupCandidates s cfg issues opts = []
    · by_cases hf : GitHubImporter.fetchItems cfg issues opts = []
      · rw [runImport_eq_of_empty s cfg issues opts now fail hf]
        refine ⟨?_, rfl, ?_⟩
        · rw [hnd]
          exact le_min (by simp) (le_of_lt hpos)
        · intro hlt
          rw [hnd] at hlt
          simp at hlt
          omega
      · rw [runImport_eq_of_allDup s cfg issues opts now fail hf hnd]
        refine ⟨?_, rfl, ?_⟩
        · rw [hnd]
          exact le_min (by simp) (le_of_lt hpos)
        · intro hlt
          rw [hnd] at hlt
          simp at hlt
          omega
    · rw [runImport_eq_main s cfg issues opts now fail hnd (by omega)]
      simp only [runImportMain]
      have htoi_nonneg : (0 : Int) ≤
          min ((nonDupCandidates s cfg issues opts).length : Int) (wipHeadroom s cfg) :=
        le_min (Int.natCast_nonneg _) (le_of_lt hpos)
      refine ⟨?_, ?_, ?_⟩
      · refine le_trans ?_ (le_of_eq (Int.toNat_of_nonneg htoi_nonneg))
        refine Int.ofNat_le.mpr (le_trans (importLoop_counts now fail _ 0 s _ rfl).2 ?_)
        simp only [Nat.zero_add, List.length_zip, List.length_take]
        exact le_trans (min_le_left _ _) (min_le_left _ _)
      · exact (importLoop_counts now fail _ 0 s _ rfl).1
      · intro hlt
        apply importLoop_errors_mono
        rw [if_pos (min_lt_iff.mpr (Or.inr hlt))]
        exact List.mem_singleton.mpr rfl

/-- C2 witness for the amended claim: one active item (slot 2), limit 3,
three new candidates — headroom 2, so the batch is capped at 2 and the cap
warning is recorded. -/
theorem import_caps_at_headroom_witness :
    GitHubImporter.capMsg
        (min ((nonDupCandidates ⟨[mkItem "DI-001" 2 []], []⟩ (mkCfg 3)
          [mkIssue 2 [], mkIssue 3 [], mkIssue 4 []] {}).length : Int)
          (wipHeadroom ⟨[mkItem "DI-001" 2 []], []⟩ (mkCfg 3)))
        (wipHeadroom ⟨[mkItem "DI-001" 2 []], []⟩ (mkCfg 3)) ∈
      (GitHubImporter.runImport ⟨[mkItem "DI-001" 2 []], []⟩ (mkCfg 3)
        [mkIssue 2 [], mkIssue 3 [], mkIssue 4 []] {} 0 (fun _ => false)).1.errors :=
  ((import_caps_at_headroom ⟨[mkItem "DI-001" 2 []], []⟩ (mkCfg 3)
      [mkIssue 2 [], mkIssue 3 [], mkIssue 4 []] {} 0 (fun _ => false)).2
    (by decide)).2.2 (by decide)

/-- C1: `import()` never creates a delivery item for a candidate whose
external issue number already appears in the linked-issue field of any
active or archived item — every created item's linked numbers avoid the
existing set — and the duplicate candidates are all counted as skipped. -/
theorem import_never_recreates_linked (s : Store) (cfg : SaferConfig)
    (issues : List GitHubIssue) (opts : ImportOptions) (now : Nat) (fail : Nat → Bool) :
    (∀ it ∈ (GitHubImporter.runImport s cfg issues opts now fail).1.items,
      ∀ n ∈ it.githubIssues, n ∉ existingLinkedIssues s) ∧
    ((dupCandidates s cfg issues opts).length : Int) ≤
      (GitHubImporter.runImport s cfg issues opts now fail).1.skipped := by
  by_cases hf : GitHubImporter.fetchItems cfg issues opts = []
  · rw [runImport_eq_of_empty s cfg issues opts now fail hf]
    constructor
    · intro it hit
      simp at hit
    · unfold dupCandidates
      rw [hf]
      simp
  · by_cases hnd : nonDupCandidates s cfg issues opts = []
    · rw [runImport_eq_of_allDup s cfg issues opts now fail hf hnd]
      constructor
      · intro it hit
        simp at hit
      · exact le_refl _
    · by_cases hz : wipHeadroom s cfg = 0
      · rw [runImport_eq_of_wipZero s cfg issues opts now fail hnd hz]
        constructor
        · intro it hit
          simp at hit
        · exact le_refl _
      · rw [runImport_eq_main s cfg issues opts now fail hnd hz]
        simp only [runImportMain]
        constructor
        · intro it hit n hn
          rcases importLoop_items_src now fail _ 0 s _ it hit with hmem | ⟨p, hp, hpe⟩
          · simp at hmem
          · rw [hpe] at hn
            have hn' : n = p.1.sourceId := by simpa using hn
            subst hn'
            have hp1 := (List.of_mem_zip hp).1
            have hp2 := List.mem_of_mem_take hp1
            have hprop := (List.mem_filter.mp hp2).2
            unfold nonDupCandidates existingLinkedIssues at hprop
            simp only [decide_not, Bool.not_eq_true', decide_eq_false_iff_not] at hprop
            intro hmem
            apply hprop
            unfold existingLinkedIssues at hmem
            exact List.elem_iff.mpr hmem
        · have hmono := importLoop_skipped_mono now fail
            ((nonDupCandidates s cfg issues opts).take
              (min ((nonDupCandidates s cfg issues opts).length : Int)
                (wipHeadroom s cfg)).toNat |>.zip
              ((((List.range cfg.maxWIP).map (· + 1)).filter
                (fun i => ¬ ((listActiveItems s).map (fun item => item.wipSlot)).contains i)).take
                (max (min ((nonDupCandidates s cfg issues opts).length : Int)
                  (wipHeadroom s cfg)) 1).toNat))
            0 s
            { success := false, imported := 0,
              skipped := ((dupCandidates s cfg issues opts).length : Int),
              errors := if (min ((nonDupCandidates s cfg issues opts).length : Int)
                  (wipHeadroom s cfg)) < ((nonDupCandidates s cfg issues opts).length : Int) then
                [GitHubImporter.capMsg
                  (min ((nonDupCandidates s cfg issues opts).length : Int) (wipHeadroom s cfg))
                  (wipHeadroom s cfg)] else [],
              items := [] }
          have hmin : (min ((nonDupCandidates s cfg issues opts).length : Int)
              (wipHeadroom s cfg)) ≤ ((nonDupCandidates s cfg issues opts).length : Int) :=
            min_le_left _ _
          simp only at hmono ⊢
          omega

/-- C1 witness: with issue 1 already linked on an active item, importing
candidates 1 and 2 creates only the item for issue 2, whose linked number
is not among the existing linked numbers. -/
theorem import_never_recreates_linked_witness :
    (2 : Nat) ∉ existingLinkedIssues ⟨[mkItem "DI-001" 1 [1]], []⟩ :=
  (import_never_recreates_linked ⟨[mkItem "DI-001" 1 [1]], []⟩ (mkCfg 3)
      [mkIssue 1 [], mkIssue 2 []] {} 0 (fun _ => false)).1
    { id := "DI-002", status := "active", created := 0, updated := 0, wipSlot := 2,
      githubIssues := [2], title := "fix the widget", stressLevel := 3 }
    (by decide) 2 (by decide)

/-! ## Character-level lemmas for the review extraction -/

theorem charOfNat_toNat (n : Nat) (h : Nat.isValidChar n) : (Char.ofNat n).toNat = n := by
  simp [Char.ofNat, h, Char.ofNatAux, Char.toNat, UInt32.toNat, BitVec.toNat_ofNatLt]

theorem toLower_eq_hash (c : Char) (h : c.toLower = '#') : c = '#' := by
  have h' : (if c.toNat ≥ 65 ∧ c.toNat ≤ 90 then Char.ofNat (c.toNat + 32) else c) = '#' := h
  by_cases hc : c.toNat ≥ 65 ∧ c.toNat ≤ 90
  · exfalso
    rw [if_pos hc] at h'
    have hv : Nat.isValidChar (c.toNat + 32) := Or.inl (by omega)
    have h2 := congrArg Char.toNat h'
    rw [charOfNat_toNat _ hv] at h2
    have h3 : ('#' : Char).toNat = 35 := rfl
    omega
  · rw [if_neg hc] at h'
    exact h'

theorem toLower_ne_hash (c : Char) (h : c ≠ '#') : c.toLower ≠ '#' :=
  fun he => h (toLower_eq_hash c he)

theorem hashFreeCI_of_goodLine (t : String) (h : goodLine t) : hashFreeCI t.data :=
  fun c hc => toLower_ne_hash c (h c hc).2

theorem hashFreeCI_append (a b : List Char) (ha : hashFreeCI a) (hb : hashFreeCI b) :
    hashFreeCI (a ++ b) := by
  intro c hc
  rcases List.mem_append.mp hc with h | h
  · exact ha c h
  · exact hb c h

theorem hashFreeCI_dec (l : List Char) (h : (l.all fun c => c.toLower ≠ '#') = true) :
    hashFreeCI l := by
  intro c hc
  simpa using List.all_eq_true.mp h c hc

theorem digitChar_toLower_ne_hash (r : Nat) (h : r < 10) :
    (Nat.digitChar r).toLower ≠ '#' := by
  interval_cases r <;> decide

theorem natDecAux_hashFree (n : Nat) : hashFreeCI (natDecAux n) := by
  intro c hc
  induction n using Nat.strong_induction_on with
  | _ n ih =>
    match n with
    | 0 => simp [natDecAux, natDecAuxF] at hc
    | m + 1 =>
      rw [natDecAux_succ] at hc
      rcases List.mem_append.mp hc with h | h
      · exact ih ((m + 1) / 10) (Nat.div_lt_self (Nat.succ_pos m) (by omega)) h
      · have hc' : c = Nat.digitChar ((m + 1) % 10) := by simpa using h
        subst hc'
        exact digitChar_toLower_ne_hash _ (Nat.mod_lt _ (by omega))

theorem natDec_hashFree (n : Nat) : hashFreeCI (natDec n).data := by
  unfold natDec
  split
  · intro c hc
    have : c = '0' := by
      simpa using hc
    subst this
    decide
  · exact natDecAux_hashFree n

theorem pad2_hashFree (n : Nat) : hashFreeCI (pad2 n).data := by
  unfold pad2
  split
  · rw [String.data_append]
    refine hashFreeCI_append _ _ ?_ (natDec_hashFree n)
    intro c hc
    have : c = '0' := by simpa using hc
    subst this
    decide
  · exact natDec_hashFree n

theorem weekIdOf_hashFree (now : Review.DateM) : hashFreeCI (Review.weekIdOf now).data := by
  unfold Review.weekIdOf
  rw [String.data_append, String.data_append]
  refine hashFreeCI_append _ _ (hashFreeCI_append _ _ (natDec_hashFree _) ?_) (pad2_hashFree _)
  intro c hc
  rcases List.mem_cons.mp hc with rfl | hc
  · decide
  rcases List.mem_cons.mp hc with rfl | hc
  · decide
  · simp at hc

theorem toFixed1_hashFree (a b : Nat) : hashFreeCI (Review.toFixed1 a b).data := by
  unfold Review.toFixed1
  rw [String.data_append, String.data_append]
  refine hashFreeCI_append _ _ (hashFreeCI_append _ _ (natDec_hashFree _) ?_)
    (natDec_hashFree _)
  intro c hc
  have : c = '.' := by simpa using hc
  subst this
  decide

theorem avgStressStr_hashFree (completed : List Review.ReviewItem) :
    hashFreeCI (Review.avgStressStr completed).data := by
  unfold Review.avgStressStr
  split
  · exact toFixed1_hashFree _ _
  · exact hashFreeCI_dec _ (by decide)

theorem avgCycleStr_hashFree (completed : List Review.ReviewItem) :
    hashFreeCI (Review.avgCycleStr completed).data := by
  unfold Review.avgCycleStr
  split
  · exact toFixed1_hashFree _ _
  · exact hashFreeCI_dec _ (by decide)

theorem joinSep_hashFree (sep : String) (l : List String)
    (hsep : hashFreeCI sep.data) (hl : ∀ x ∈ l, hashFreeCI x.data) :
    hashFreeCI (Review.joinSep sep l).data := by
  induction l with
  | nil => intro c hc; simp [Review.joinSep] at hc
  | cons x xs ih =>
    match xs with
    | [] => exact hl x (List.mem_singleton.mpr rfl)
    | y :: ys =>
      show hashFreeCI (x ++ sep ++ Review.joinSep sep (y :: ys)).data
      rw [String.data_append, String.data_append]
      exact hashFreeCI_append _ _
        (hashFreeCI_append _ _ (hl x (List.mem_cons_self _ _)) hsep)
        (ih (fun z hz => hl z (List.mem_cons_of_mem _ hz)))

theorem itemsBlockOf_hashFree (completed : List Review.ReviewItem)
    (h : ∀ it ∈ completed, goodLine it.id ∧ goodLine it.title) :
    hashFreeCI (Review.itemsBlockOf completed).data := by
  unfold Review.itemsBlockOf
  split
  · refine joinSep_hashFree _ _ (hashFreeCI_dec _ (by decide)) ?_
    intro x hx
    obtain ⟨it, hit, rfl⟩ := List.mem_map.mp hx
    rw [String.data_append, String.data_append, String.data_append]
    exact hashFreeCI_append _ _
      (hashFreeCI_append _ _
        (hashFreeCI_append _ _ (hashFreeCI_dec _ (by decide))
          (hashFreeCI_of_goodLine _ (h it hit).1))
        (hashFreeCI_dec _ (by decide)))
      (hashFreeCI_of_goodLine _ (h it hit).2)
  · exact hashFreeCI_dec _ (by decide)

/-! ## Pattern-search walk lemmas -/

theorem afterFirstCI_cons_neg (pat : List Char) (c : Char) (cs : List Char)
    (h : isPrefCI pat (c :: cs) = false) :
    afterFirstCI pat (c :: cs) = afterFirstCI pat cs := by
  rw [afterFirstCI, if_neg (by simp [h])]

theorem lceq_hash_false (c : Char) (h : c.toLower ≠ '#') : lceq '#' c = false := by
  have h1 : ('#' : Char).toLower = '#' := by decide
  unfold lceq
  rw [h1]
  simp
  exact fun habs => h habs.symm

theorem isPrefCI_false_head (a : Char) (as : List Char) (c : Char) (cs : List Char)
    (h : lceq a c = false) : isPrefCI (a :: as) (c :: cs) = false := by
  simp [isPrefCI, h]

theorem skipChunk_hashFree (p ch : List Char) (hch : hashFreeCI ch) :
    SkipChunk ('#' :: p) ch := by
  induction ch with
  | nil => intro y; rfl
  | cons c cs ih =>
    intro y
    show afterFirstCI ('#' :: p) (c :: (cs ++ y)) = _
    rw [afterFirstCI_cons_neg _ _ _
      (isPrefCI_false_head _ _ _ _ (lceq_hash_false c (hch c (List.mem_cons_self _ _))))]
    exact ih (fun c' hc' => hch c' (List.mem_cons_of_mem _ hc')) y

theorem skipChunk_append (pat a b : List Char) (ha : SkipChunk pat a)
    (hb : SkipChunk pat b) : SkipChunk pat (a ++ b) := by
  intro y
  rw [List.append_assoc, ha (b ++ y), hb y]

theorem isPrefCI_take (p l : List Char) (h : isPrefCI p l = true) (n : Nat) :
    isPrefCI (p.take n) (l.take n) = true := by
  induction n generalizing p l with
  | zero => rfl
  | succ n ih =>
    match p, l with
    | [], _ => rfl
    | a :: as, [] => exact absurd h (by simp [isPrefCI])
    | a :: as, b :: bs =>
      simp only [isPrefCI, Bool.and_eq_true] at h
      show isPrefCI (a :: as.take n) (b :: bs.take n) = true
      simp only [isPrefCI, Bool.and_eq_true]
      exact ⟨h.1, ih _ _ h.2⟩

theorem isPrefCI_false_of_take (pat ch : List Char) (n : Nat) (hn : n ≤ ch.length)
    (h : isPrefCI (pat.take n) (ch.take n) = false) (y : List Char) :
    isPrefCI pat (ch ++ y) = false := by
  cases h' : isPrefCI pat (ch ++ y) with
  | false => rfl
  | true =>
    exfalso
    have h2 := isPrefCI_take _ _ h' n
    rw [List.take_append_eq_append_take, Nat.sub_eq_zero_of_le hn, List.take_zero,
      List.append_nil] at h2
    rw [h] at h2
    cases h2

theorem skipChunk_hashBlock (p x : List Char) (hx : hashFreeCI x)
    (hm : ∀ y, isPrefCI ('#' :: '#' :: ' ' :: p) (('#' :: '#' :: ' ' :: x) ++ y) = false) :
    SkipChunk ('#' :: '#' :: ' ' :: p) ('#' :: '#' :: ' ' :: x) := by
  intro y
  show afterFirstCI _ ('#' :: '#' :: ' ' :: (x ++ y)) = _
  rw [afterFirstCI_cons_neg ('#' :: '#' :: ' ' :: p) '#' ('#' :: ' ' :: (x ++ y)) (hm y)]
  have h2 : isPrefCI ('#' :: '#' :: ' ' :: p) ('#' :: ' ' :: (x ++ y)) = false := by
    simp [isPrefCI, show lceq '#' ' ' = false from by decide]
  rw [afterFirstCI_cons_neg _ _ _ h2]
  have h3 : isPrefCI ('#' :: '#' :: ' ' :: p) (' ' :: (x ++ y)) = false :=
    isPrefCI_false_head _ _ _ _ (by decide)
  rw [afterFirstCI_cons_neg _ _ _ h3]
  exact skipChunk_hashFree _ x hx y

theorem isPrefCI_refl_append (p r : List Char) : isPrefCI p (p ++ r) = true := by
  induction p with
  | nil => rfl
  | cons a as ih =>
    show (lceq a a && isPrefCI as (as ++ r)) = true
    rw [ih]
    simp [lceq]

theorem afterFirstCI_self (pat r : List Char) (hne : pat ≠ []) :
    afterFirstCI pat (pat ++ r) = some r := by
  match pat, hne with
  | a :: as, _ =>
    show afterFirstCI (a :: as) (a :: (as ++ r)) = some r
    rw [afterFirstCI, if_pos (by simpa using isPrefCI_refl_append (a :: as) r)]
    show some (((a :: as) ++ r).drop (a :: as).length) = some r
    rw [List.drop_left]

/-- Skip one leading piece of the scanned text. -/
theorem skip1 (pat a y : List Char) (h : SkipChunk pat a) :
    afterFirstCI pat (a ++ y) = afterFirstCI pat y := h y

/-- Skip three leading pieces of the scanned text. -/
theorem skip3 (pat a b c y : List Char) (h : SkipChunk pat ((a ++ b) ++ c)) :
    afterFirstCI pat (a ++ (b ++ (c ++ y))) = afterFirstCI pat y := by
  have := h y
  simpa [List.append_assoc] using this

/-- Skip seven leading pieces of the scanned text. -/
theorem skip7 (pat a b c d e f g y : List Char)
    (h : SkipChunk pat ((((((a ++ b) ++ c) ++ d) ++ e) ++ f) ++ g)) :
    afterFirstCI pat (a ++ (b ++ (c ++ (d ++ (e ++ (f ++ (g ++ y))))))) =
      afterFirstCI pat y := by
  have := h y
  simpa [List.append_assoc] using this

/-! ## Capture and trim lemmas -/

theorem captureUntil_stop (r : List Char)
    (h : (Review.captureStops.any fun st => isPrefCS st r) = true) :
    Review.captureUntil r = [] := by
  match r with
  | [] => exact absurd h (by decide)
  | c :: cs => rw [Review.captureUntil, if_pos (by simpa using h)]

theorem captureUntil_not_stop (c : Char) (cs : List Char)
    (h : (Review.captureStops.any fun st => isPrefCS st (c :: cs)) = false) :
    Review.captureUntil (c :: cs) = c :: Review.captureUntil cs := by
  rw [Review.captureUntil, if_neg (by simp [h])]

theorem stops_false_of_ne_nl (c : Char) (cs : List Char) (h : c ≠ '\n') :
    (Review.captureStops.any fun st => isPrefCS st (c :: cs)) = false := by
  have h1 : isPrefCS ['\n', '#', '#', ' '] (c :: cs) = false := by
    show ((('\n' : Char) = c : Bool) && isPrefCS ['#', '#', ' '] cs) = false
    rw [decide_eq_false (fun he => h he.symm)]
    rfl
  have h2 : isPrefCS ['\n', '-', '-', '-'] (c :: cs) = false := by
    show ((('\n' : Char) = c : Bool) && isPrefCS ['-', '-', '-'] cs) = false
    rw [decide_eq_false (fun he => h he.symm)]
    rfl
  show (Review.captureStops.any fun st => isPrefCS st (c :: cs)) = false
  rw [show Review.captureStops = [['\n', '#', '#', ' '], ['\n', '-', '-', '-']] from rfl]
  simp [h1, h2]

theorem captureUntil_text (t : List Char) (ht : ∀ c ∈ t, c ≠ '\n') (r : List Char)
    (hstop : (Review.captureStops.any fun st => isPrefCS st ('\n' :: r)) = true) :
    Review.captureUntil (t ++ '\n' :: '\n' :: r) = t ++ ['\n'] := by
  induction t with
  | nil =>
    show Review.captureUntil ('\n' :: '\n' :: r) = ['\n']
    have hfirst : (Review.captureStops.any fun st => isPrefCS st ('\n' :: '\n' :: r)) = false := by
      have h1 : isPrefCS ['\n', '#', '#', ' '] ('\n' :: '\n' :: r) = false := by
        show ((('\n' : Char) = '\n' : Bool) &&
          ((('#' : Char) = '\n' : Bool) && isPrefCS ['#', ' '] r)) = false
        rw [show ((('#' : Char) = '\n' : Bool)) = false from by decide]
        simp
      have h2 : isPrefCS ['\n', '-', '-', '-'] ('\n' :: '\n' :: r) = false := by
        show ((('\n' : Char) = '\n' : Bool) &&
          ((('-' : Char) = '\n' : Bool) && isPrefCS ['-', '-'] r)) = false
        rw [show ((('-' : Char) = '\n' : Bool)) = false from by decide]
        simp
      rw [show Review.captureStops = [['\n', '#', '#', ' '], ['\n', '-', '-', '-']] from rfl]
      simp [h1, h2]
    rw [captureUntil_not_stop _ _ hfirst, captureUntil_stop _ hstop]
  | cons c cs ih =>
    show Review.captureUntil (c :: (cs ++ '\n' :: '\n' :: r)) = c :: (cs ++ ['\n'])
    rw [captureUntil_not_stop c _ (stops_false_of_ne_nl c _ (ht c (List.mem_cons_self _ _)))]
    rw [ih (fun c' h' => ht c' (List.mem_cons_of_mem _ h'))]

theorem trimChars_good (t : String) (h : goodText t) :
    trimChars (t.data ++ ['\n']) = t.data := by
  obtain ⟨hne, _, hhead, hlast, _⟩ := h
  rcases hd : t.data with _ | ⟨c, rest⟩
  · exact absurd hd hne
  · have hc : jsWS c = false := by
      apply hhead
      rw [hd]
      rfl
    have hlast' : ∀ x, ((c :: rest).getLast? = some x) → jsWS x = false := by
      intro x hx
      apply hlast
      rw [hd]
      exact hx
    show ((List.dropWhile jsWS ((c :: rest) ++ ['\n'])).reverse.dropWhile jsWS).reverse
      = c :: rest
    rw [show (c :: rest) ++ ['\n'] = c :: (rest ++ ['\n']) from rfl]
    rw [List.dropWhile_cons_of_neg (by simp [hc])]
    rw [show c :: (rest ++ ['\n']) = (c :: rest) ++ ['\n'] from rfl, List.reverse_append]
    rw [show (['\n'] : List Char).reverse = ['\n'] from rfl]
    rw [show ('\n' :: []) ++ (c :: rest).reverse = '\n' :: (c :: rest).reverse from rfl]
    rw [List.dropWhile_cons_of_pos (by decide)]
    have hdrop : List.dropWhile jsWS (c :: rest).reverse = (c :: rest).reverse := by
      rcases hr : (c :: rest).reverse with _ | ⟨x, xs⟩
      · rfl
      · have hx : (c :: rest).getLast? = some x := by
          rw [← List.head?_reverse, hr]
          rfl
        rw [List.dropWhile_cons_of_neg (by simp [hlast' x hx])]
    rw [hdrop, List.reverse_reverse]

/-- The trim of a captured good text plus its trailing newline is the text. -/
theorem jsTrim_good (t : String) (h : goodText t) :
    jsTrim (String.mk (t.data ++ ['\n'])) = t := by
  show String.mk (trimChars (String.mk (t.data ++ ['\n'])).data) = t
  rw [show (String.mk (t.data ++ ['\n'])).data = t.data ++ ['\n'] from rfl]
  rw [trimChars_good t h]

/-! ## Walking the rendered artifact -/

theorem skipChunk_sharpSpace (p r : List Char) (hr : hashFreeCI r) :
    SkipChunk ('#' :: '#' :: ' ' :: p) ('#' :: ' ' :: r) := by
  intro y
  show afterFirstCI _ ('#' :: ' ' :: (r ++ y)) = _
  have h1 : isPrefCI ('#' :: '#' :: ' ' :: p) ('#' :: ' ' :: (r ++ y)) = false := by
    simp [isPrefCI, show lceq '#' ' ' = false from by decide]
  rw [afterFirstCI_cons_neg _ _ _ h1]
  have h2 : isPrefCI ('#' :: '#' :: ' ' :: p) (' ' :: (r ++ y)) = false :=
    isPrefCI_false_head _ _ _ _ (by decide)
  rw [afterFirstCI_cons_neg _ _ _ h2]
  exact skipChunk_hashFree _ r hr y

theorem goodText_hashFree (t : String) (h : goodText t) : hashFreeCI t.data := by
  intro c hc
  apply toLower_ne_hash
  intro he
  subst he
  exact h.2.1 '#' hc (by decide)

theorem goodText_no_nl (t : String) (h : goodText t) : ∀ c ∈ t.data, c ≠ '\n' := by
  intro c hc he
  have := h.2.1 c hc
  rw [he] at this
  exact this (by decide)

theorem skipChunk_headerStr (p : List Char) (now : Review.DateM)
    (completed : List Review.ReviewItem)
    (hdate : goodLine now.dateStr)
    (hitems : ∀ it ∈ completed, goodLine it.id ∧ goodLine it.title)
    (hm1 : isPrefCI (('#' :: '#' :: ' ' :: p).take 9)
      ['#', '#', ' ', 'M', 'e', 't', 'r', 'i', 'c'] = false)
    (hm2 : isPrefCI (('#' :: '#' :: ' ' :: p).take 9)
      ['#', '#', ' ', 'C', 'o', 'm', 'p', 'l', 'e'] = false) :
    SkipChunk ('#' :: '#' :: ' ' :: p) (Review.headerStr now completed).data := by
  have hblockM : SkipChunk ('#' :: '#' :: ' ' :: p)
      (("\n\n## Metrics\n\n| Metric | Value |\n|--------|-------|\n| Items Completed | ").data) :=
    skipChunk_append _ ("\n\n").data
      ('#' :: '#' :: ' ' ::
        ("Metrics\n\n| Metric | Value |\n|--------|-------|\n| Items Completed | ").data)
      (skipChunk_hashFree _ _ (hashFreeCI_dec _ (by decide)))
      (skipChunk_hashBlock p _ (hashFreeCI_dec _ (by decide))
        (fun y => isPrefCI_false_of_take _ _ 9 (by decide) hm1 y))
  have hblockC : SkipChunk ('#' :: '#' :: ' ' :: p) ((" days |\n\n## Completed Items\n\n").data) :=
    skipChunk_append _ (" days |\n\n").data
      ('#' :: '#' :: ' ' :: ("Completed Items\n\n").data)
      (skipChunk_hashFree _ _ (hashFreeCI_dec _ (by decide)))
      (skipChunk_hashBlock p _ (hashFreeCI_dec _ (by decide))
        (fun y => isPrefCI_false_of_take _ _ 9 (by decide) hm2 y))
  intro y
  simp only [Review.headerStr, String.data_append, List.append_assoc]
  exact (skip1 _ _ _ (skipChunk_sharpSpace p _ (hashFreeCI_dec _ (by decide)))).trans
    ((skip1 _ _ _ (skipChunk_hashFree _ _ (weekIdOf_hashFree now))).trans
    ((skip1 _ _ _ (skipChunk_hashFree _ _ (hashFreeCI_dec _ (by decide)))).trans
    ((skip1 _ _ _ (skipChunk_hashFree _ _ (hashFreeCI_of_goodLine _ hdate))).trans
    ((skip1 _ _ _ hblockM).trans
    ((skip1 _ _ _ (skipChunk_hashFree _ _ (natDec_hashFree _))).trans
    ((skip1 _ _ _ (skipChunk_hashFree _ _ (hashFreeCI_dec _ (by decide)))).trans
    ((skip1 _ _ _ (skipChunk_hashFree _ _ (avgStressStr_hashFree completed))).trans
    ((skip1 _ _ _ (skipChunk_hashFree _ _ (hashFreeCI_dec _ (by decide)))).trans
    ((skip1 _ _ _ (skipChunk_hashFree _ _ (natDec_hashFree _))).trans
    ((skip1 _ _ _ (skipChunk_hashFree _ _ (hashFreeCI_dec _ (by decide)))).trans
    ((skip1 _ _ _ (skipChunk_hashFree _ _ (natDec_hashFree _))).trans
    ((skip1 _ _ _ (skipChunk_hashFree _ _ (hashFreeCI_dec _ (by decide)))).trans
    ((skip1 _ _ _ (skipChunk_hashFree _ _ (avgCycleStr_hashFree completed))).trans
    ((skip1 _ _ _ hblockC).trans
    ((skip1 _ _ _ (skipChunk_hashFree _ _ (itemsBlockOf_hashFree completed hitems))).trans
    (skip1 _ _ _ (skipChunk_hashFree _ _ (hashFreeCI_dec _ (by decide)))))))))))))))))))

theorem goodText_of_B (t : String) (h : goodTextB t = true) : goodText t := by
  unfold goodTextB at h
  simp only [Bool.and_eq_true] at h
  obtain ⟨⟨⟨⟨h1, h2⟩, h3⟩, h4⟩, h5⟩ := h
  refine ⟨?_, ?_, ?_, ?_, ?_⟩
  · intro he
    rw [he] at h1
    exact absurd h1 (by decide)
  · intro c hc
    exact of_decide_eq_true (List.all_eq_true.mp h2 c hc)
  · intro c hc
    rw [hc] at h3
    have h3' : (!jsWS c) = true := h3
    simpa using h3'
  · intro c hc
    rw [hc] at h4
    have h4' : (!jsWS c) = true := h4
    simpa using h4'
  · exact of_decide_eq_true h5

/-- The search pattern of the What Went Well section, as a character list. -/
theorem hpatW : ("## " ++ Review.hWentWell ++ "\n\n").data =
    ['#', '#', ' ', 'W', 'h', 'a', 't', ' ', 'W', 'e', 'n', 't', ' ', 'W', 'e', 'l', 'l',
     '\n', '\n'] := by decide

/-- The search pattern of the What Didnt Go Well section, as a character list. -/
theorem hpatD : ("## " ++ Review.hDidnt ++ "\n\n").data =
    ['#', '#', ' ', 'W', 'h', 'a', 't', ' ', 'D', 'i', 'd', 'n', Review.aposC, 't', ' ',
     'G', 'o', ' ', 'W', 'e', 'l', 'l', '\n', '\n'] := by decide

/-- The search pattern of the Blockers section, as a character list. -/
theorem hpatB : ("## " ++ Review.hBlockers ++ "\n\n").data =
    ['#', '#', ' ', 'B', 'l', 'o', 'c', 'k', 'e', 'r', 's', '\n', '\n'] := by decide

/-- The search pattern of the Key Learnings section, as a character list. -/
theorem hpatL : ("## " ++ Review.hLearnings ++ "\n\n").data =
    ['#', '#', ' ', 'K', 'e', 'y', ' ', 'L', 'e', 'a', 'r', 'n', 'i', 'n', 'g', 's',
     '\n', '\n'] := by decide

/-- The search pattern of the Adjustments section, as a character list. -/
theorem hpatA : ("## " ++ Review.hAdjust ++ "\n\n").data =
    ['#', '#', ' ', 'A', 'd', 'j', 'u', 's', 't', 'm', 'e', 'n', 't', 's', ' ', 'f', 'o',
     'r', ' ', 'N', 'e', 'x', 't', ' ', 'W', 'e', 'e', 'k', '\n', '\n'] := by decide

/-- The generic hit case of `extractSection`: when the scan lands right after
the heading and the captured text is good, the extraction returns it. -/
theorem extractSection_hit (content heading t : String) (r : List Char)
    (hA : afterFirstCI ("## " ++ heading ++ "\n\n").data content.data
      = some (t.data ++ '\n' :: '\n' :: r))
    (hstop : (Review.captureStops.any fun st => isPrefCS st ('\n' :: r)) = true)
    (ht : goodText t) :
    Review.extractSection content heading = t := by
  unfold Review.extractSection
  rw [hA]
  show (if Review.defaultTexts.contains
        (jsTrim (String.mk (Review.captureUntil (t.data ++ '\n' :: '\n' :: r)))) then ""
      else jsTrim (String.mk (Review.captureUntil (t.data ++ '\n' :: '\n' :: r)))) = t
  rw [captureUntil_text t.data (goodText_no_nl t ht) r hstop, jsTrim_good t ht]
  rw [if_neg (show ¬(Review.defaultTexts.contains t = true) from
    fun hcc => absurd (List.mem_of_elem_eq_true hcc) ht.2.2.2.2)]

/-- The miss case of `extractSection`: a heading that occurs nowhere in the
artifact yields the empty answer. -/
theorem extractSection_miss (content heading : String)
    (h : afterFirstCI ("## " ++ heading ++ "\n\n").data content.data = none) :
    Review.extractSection content heading = "" := by
  unfold Review.extractSection
  rw [h]

/-- A text the scan walks past entirely is never found. -/
theorem afterFirstCI_none_of_skip (pat l : List Char) (hpat : pat ≠ [])
    (h : SkipChunk pat l) : afterFirstCI pat l = none := by
  have h2 := h []
  rw [List.append_nil] at h2
  rw [h2]
  cases pat with
  | nil => exact absurd rfl hpat
  | cons a as => rfl

/-- One step of the optional-block renderer. -/
theorem filterMap_blockF_cons (hdg t : String) (rest : List (String × String)) :
    List.filterMap blockF ((hdg, t) :: rest) =
      (if t ≠ "" then [blockOf hdg t] else []) ++ List.filterMap blockF rest := by
  by_cases h : t ≠ ""
  · rw [if_pos h, List.filterMap_cons,
      show blockF (hdg, t) = some (blockOf hdg t) from if_pos h]
    rfl
  · rw [if_neg h, List.filterMap_cons, show blockF (hdg, t) = none from if_neg h]
    rfl

/-- `sectionBlocks` as the optional-block renderer over the five pairs. -/
theorem sectionBlocks_eq (ans : Review.Reflections) :
    Review.sectionBlocks ans = List.filterMap blockF (reviewPairs ans) := by
  unfold reviewPairs
  rw [filterMap_blockF_cons, filterMap_blockF_cons, filterMap_blockF_cons,
    filterMap_blockF_cons, filterMap_blockF_cons]
  unfold Review.sectionBlocks
  simp only [List.filterMap_nil, List.append_assoc, List.append_nil]
  rfl

/-- `joinSep` on a list known to extend. -/
theorem joinSep_cons_ne (sep x : String) (L : List String) (h : L ≠ []) :
    Review.joinSep sep (x :: L) = (x ++ sep) ++ Review.joinSep sep L := by
  cases L with
  | nil => exact absurd rfl h
  | cons y ys => rfl

/-- Splicing the separator-joined blocks onto a final chunk gives the
`tailData` stream. -/
theorem joinSep_tailData (L : List String) (h : L ≠ []) (fb : List Char) :
    (Review.joinSep "\n\n" L).data ++ ('\n' :: '\n' :: fb) = tailData L fb := by
  induction L with
  | nil => exact absurd rfl h
  | cons b bs ih =>
    cases bs with
    | nil => rfl
    | cons c cs =>
      rw [joinSep_cons_ne _ _ _ (by simp)]
      simp only [String.data_append, List.append_assoc]
      rw [ih (by simp)]
      rfl

/-- The rendered block list is never empty. -/
theorem renderedBlocks_ne_nil (ans : Review.Reflections) : renderedBlocks ans ≠ [] := by
  unfold renderedBlocks
  by_cases h : (Review.sectionBlocks ans).length > 0
  · rw [if_pos h]
    intro he
    rw [he] at h
    exact absurd h (by decide)
  · rw [if_neg h]
    exact List.cons_ne_nil _ _

/-- The artifact stream: the header, then the rendered blocks and the footer
as one `tailData` walk. -/
theorem reviewMarkdown_data_tail (now : Review.DateM)
    (completed : List Review.ReviewItem) (ans : Review.Reflections) :
    (Review.reviewMarkdown now completed ans).data =
      (Review.headerStr now completed).data ++
        tailData (renderedBlocks ans) (footerBody now).data := by
  have hjoin : (Review.reflBlockOf ans).data ++ ('\n' :: '\n' :: (footerBody now).data)
      = tailData (renderedBlocks ans) (footerBody now).data := by
    unfold Review.reflBlockOf renderedBlocks
    by_cases h : (Review.sectionBlocks ans).length > 0
    · rw [if_pos h, if_pos h]
      refine joinSep_tailData _ (fun he => ?_) _
      rw [he] at h
      exact absurd h (by decide)
    · rw [if_neg h, if_neg h]
      rfl
  rw [← hjoin]
  unfold Review.reviewMarkdown
  simp only [footerBody, String.data_append, List.append_assoc]
  rfl

/-- Skipping one rendered block whose heading differs from the search
pattern within the first `n` characters. -/
theorem skipChunk_blockOf (p : List Char) (hdg t : String) (n : Nat)
    (ht : hashFreeCI t.data) (hh : hashFreeCI hdg.data)
    (hn : n ≤ 3 + hdg.data.length)
    (hm : isPrefCI (('#' :: '#' :: ' ' :: p).take n)
      (('#' :: '#' :: ' ' :: hdg.data).take n) = false) :
    SkipChunk ('#' :: '#' :: ' ' :: p) (blockOf hdg t).data := by
  have e : (blockOf hdg t).data
      = '#' :: '#' :: ' ' :: (hdg.data ++ ('\n' :: '\n' :: t.data)) := by
    simp only [blockOf, String.data_append, List.append_assoc]
    rfl
  rw [e]
  refine skipChunk_hashBlock p (hdg.data ++ ('\n' :: '\n' :: t.data)) ?_ ?_
  · refine hashFreeCI_append _ _ hh ?_
    intro c hc
    rcases List.mem_cons.mp hc with rfl | hc2
    · decide
    rcases List.mem_cons.mp hc2 with rfl | hc3
    · decide
    · exact ht c hc3
  · intro y
    have e2 : ('#' :: '#' :: ' ' :: (hdg.data ++ ('\n' :: '\n' :: t.data))) ++ y
        = ('#' :: '#' :: ' ' :: hdg.data) ++ (('\n' :: '\n' :: t.data) ++ y) := by
      simp [List.append_assoc]
    rw [e2]
    refine isPrefCI_false_of_take _ _ n ?_ hm _
    simp only [List.length_cons]
    omega

/-- Skipping the whole block-and-footer stream. -/
theorem skipChunk_tailData (p : List Char) (L : List String)
    (hL : ∀ b ∈ L, SkipChunk ('#' :: p) b.data) (fb : List Char)
    (hfb : SkipChunk ('#' :: p) fb) :
    SkipChunk ('#' :: p) (tailData L fb) := by
  induction L with
  | nil => exact hfb
  | cons b bs ih =>
    show SkipChunk ('#' :: p) (b.data ++ ('\n' :: '\n' :: tailData bs fb))
    refine skipChunk_append _ _ _ (hL b (List.mem_cons_self _ _)) ?_
    have h2 : SkipChunk ('#' :: p) (['\n', '\n'] ++ tailData bs fb) :=
      skipChunk_append _ _ _ (skipChunk_hashFree _ _ (hashFreeCI_dec _ (by decide)))
        (ih (fun x hx => hL x (List.mem_cons_of_mem _ hx)))
    exact h2

/-- Finding the block of an answered section after skippable predecessors. -/
theorem afterFirstCI_tailData_hit (p : List Char) (pre : List String)
    (hpre : ∀ b ∈ pre, SkipChunk ('#' :: p) b.data)
    (blk t : String) (hblk : blk.data = ('#' :: p) ++ t.data)
    (post : List String) (fb : List Char) :
    afterFirstCI ('#' :: p) (tailData (pre ++ blk :: post) fb)
      = some (t.data ++ '\n' :: '\n' :: tailData post fb) := by
  induction pre with
  | nil =>
    show afterFirstCI ('#' :: p) (blk.data ++ ('\n' :: '\n' :: tailData post fb)) = _
    rw [hblk, List.append_assoc]
    exact afterFirstCI_self _ _ (by simp)
  | cons x xs ih =>
    show afterFirstCI ('#' :: p)
      (x.data ++ ('\n' :: '\n' :: tailData (xs ++ blk :: post) fb)) = _
    rw [hpre x (List.mem_cons_self _ _) ('\n' :: '\n' :: tailData (xs ++ blk :: post) fb)]
    have hnl : SkipChunk ('#' :: p) ['\n', '\n'] :=
      skipChunk_hashFree _ _ (hashFreeCI_dec _ (by decide))
    rw [show ('\n' :: '\n' :: tailData (xs ++ blk :: post) fb)
        = ['\n', '\n'] ++ tailData (xs ++ blk :: post) fb from rfl]
    rw [hnl (tailData (xs ++ blk :: post) fb)]
    exact ih (fun b hb => hpre b (List.mem_cons_of_mem _ hb))

/-- The block stop fires on the text following a captured answer. -/
theorem stops_sharp (r : List Char) :
    (Review.captureStops.any fun st =>
      isPrefCS st ('\n' :: '#' :: '#' :: ' ' :: r)) = true := rfl

/-- The footer-rule stop fires on the text following a captured answer. -/
theorem stops_dash (r : List Char) :
    (Review.captureStops.any fun st =>
      isPrefCS st ('\n' :: '-' :: '-' :: '-' :: r)) = true := rfl

/-- Every rendered optional block is a section block. -/
theorem blocks_shape (pairs : List (String × String)) :
    ∀ b ∈ List.filterMap blockF pairs, ∃ hdg t, b = blockOf hdg t := by
  intro b hb
  obtain ⟨pr, _, hf⟩ := List.mem_filterMap.mp hb
  unfold blockF at hf
  by_cases h : pr.2 ≠ ""
  · rw [if_pos h] at hf
    exact ⟨pr.1, pr.2, (Option.some_inj.mp hf).symm⟩
  · rw [if_neg h] at hf
    exact Option.noConfusion hf

/-- The capture after a found section always stops, at the next block or at
the footer rule. -/
theorem stops_tailData (post : List String)
    (hpost : ∀ b ∈ post, ∃ hdg t, b = blockOf hdg t) (now : Review.DateM) :
    (Review.captureStops.any fun st =>
      isPrefCS st ('\n' :: tailData post (footerBody now).data)) = true := by
  cases post with
  | nil => exact stops_dash _
  | cons q qs =>
    obtain ⟨hdg, t, rfl⟩ := hpost q (List.mem_cons_self _ _)
    exact stops_sharp _

/-- Section blocks of pairs whose non-empty answers are good and whose
headings mismatch the search pattern are all walked past. -/
theorem skipChunk_of_mem_filterMap (p : List Char) (pairs : List (String × String))
    (h : ∀ pr ∈ pairs, pr.2 = "" ∨ (goodText pr.2 ∧ hashFreeCI pr.1.data ∧
      ∃ n, n ≤ 3 + pr.1.data.length ∧
        isPrefCI (('#' :: '#' :: ' ' :: p).take n)
          (('#' :: '#' :: ' ' :: pr.1.data).take n) = false)) :
    ∀ b ∈ List.filterMap blockF pairs, SkipChunk ('#' :: '#' :: ' ' :: p) b.data := by
  intro b hb
  obtain ⟨pr, hmem, hf⟩ := List.mem_filterMap.mp hb
  unfold blockF at hf
  by_cases hne : pr.2 ≠ ""
  · rw [if_pos hne] at hf
    rcases h pr hmem with he | ⟨hg, hh, n, hn, hm⟩
    · exact absurd he hne
    · rw [← Option.some_inj.mp hf]
      exact skipChunk_blockOf p pr.1 pr.2 n (goodText_hashFree _ hg) hh hn hm
  · rw [if_neg hne] at hf
    exact Option.noConfusion hf

/-- Skipping the footer: it is hash-free when the ISO timestamp is. -/
theorem skipChunk_footerBody (p : List Char) (now : Review.DateM)
    (hiso : goodLine now.iso) :
    SkipChunk ('#' :: p) (footerBody now).data := by
  apply skipChunk_hashFree
  unfold footerBody
  rw [String.data_append, String.data_append]
  exact hashFreeCI_append _ _ (hashFreeCI_append _ _ (hashFreeCI_dec _ (by decide))
    (hashFreeCI_of_goodLine _ hiso)) (hashFreeCI_dec _ (by decide))

/-- The hit form of a section extraction: the heading sits at a known split
of the five answers, every earlier rendered block is skippable, and the scan
returns precisely the answered text. -/
theorem extractSection_hit_of_split (now : Review.DateM)
    (completed : List Review.ReviewItem) (ans : Review.Reflections)
    (hdg t : String) (p : List Char)
    (hpat : ("## " ++ hdg ++ "\n\n").data = '#' :: '#' :: ' ' :: p)
    (prePairs postPairs : List (String × String))
    (hsplit : reviewPairs ans = prePairs ++ (hdg, t) :: postPairs)
    (hdate : goodLine now.dateStr)
    (hitems : ∀ it ∈ completed, goodLine it.id ∧ goodLine it.title)
    (ht : goodText t)
    (hpre : ∀ b ∈ List.filterMap blockF prePairs,
      SkipChunk ('#' :: '#' :: ' ' :: p) b.data)
    (hm1 : isPrefCI (('#' :: '#' :: ' ' :: p).take 9)
      ['#', '#', ' ', 'M', 'e', 't', 'r', 'i', 'c'] = false)
    (hm2 : isPrefCI (('#' :: '#' :: ' ' :: p).take 9)
      ['#', '#', ' ', 'C', 'o', 'm', 'p', 'l', 'e'] = false) :
    Review.extractSection (Review.reviewMarkdown now completed ans) hdg = t := by
  have htne : t ≠ "" := fun he => ht.1 (congrArg String.data he)
  have hblocks : Review.sectionBlocks ans =
      List.filterMap blockF prePairs ++
        blockOf hdg t :: List.filterMap blockF postPairs := by
    rw [sectionBlocks_eq, hsplit, List.filterMap_append]
    congr 1
    rw [filterMap_blockF_cons, if_pos htne]
    rfl
  have hlen : (Review.sectionBlocks ans).length > 0 := by
    rw [hblocks]
    simp
  have hrb : renderedBlocks ans =
      List.filterMap blockF prePairs ++
        blockOf hdg t :: List.filterMap blockF postPairs := by
    unfold renderedBlocks
    rw [if_pos hlen, hblocks]
  refine extractSection_hit _ _ _
    (tailData (List.filterMap blockF postPairs) (footerBody now).data) ?_ ?_ ht
  · rw [hpat, reviewMarkdown_data_tail now completed ans, hrb]
    exact (skip1 _ _ _
        (skipChunk_headerStr p now completed hdate hitems hm1 hm2)).trans
      (afterFirstCI_tailData_hit ('#' :: ' ' :: p) _ hpre (blockOf hdg t) t
        (by rw [show blockOf hdg t = ("## " ++ hdg ++ "\n\n") ++ t from rfl,
          String.data_append, hpat]) _ _)
  · exact stops_tailData _ (blocks_shape _) now

/-- The miss form: when the searched answer is empty every rendered block is
skippable, so the heading occurs nowhere in the artifact. -/
theorem extractSection_miss_of_skip (now : Review.DateM)
    (completed : List Review.ReviewItem) (ans : Review.Reflections)
    (hdg : String) (p : List Char)
    (hpat : ("## " ++ hdg ++ "\n\n").data = '#' :: '#' :: ' ' :: p)
    (hdate : goodLine now.dateStr)
    (hitems : ∀ it ∈ completed, goodLine it.id ∧ goodLine it.title)
    (hiso : goodLine now.iso)
    (hall : ∀ b ∈ renderedBlocks ans, SkipChunk ('#' :: '#' :: ' ' :: p) b.data)
    (hm1 : isPrefCI (('#' :: '#' :: ' ' :: p).take 9)
      ['#', '#', ' ', 'M', 'e', 't', 'r', 'i', 'c'] = false)
    (hm2 : isPrefCI (('#' :: '#' :: ' ' :: p).take 9)
      ['#', '#', ' ', 'C', 'o', 'm', 'p', 'l', 'e'] = false) :
    Review.extractSection (Review.reviewMarkdown now completed ans) hdg = "" := by
  apply extractSection_miss
  rw [hpat, reviewMarkdown_data_tail now completed ans]
  refine afterFirstCI_none_of_skip _ _ (by simp) ?_
  exact skipChunk_append _ _ _
    (skipChunk_headerStr p now completed hdate hitems hm1 hm2)
    (skipChunk_tailData ('#' :: ' ' :: p) _ hall _ (skipChunk_footerBody _ now hiso))

/-- Packaging of the per-pair skip obligations with evaluable components. -/
theorem okBundle (p : List Char) (hdg t : String) (hg : goodText t)
    (hh : (hdg.data.all fun c => decide (c.toLower ≠ '#')) = true)
    (n : Nat) (hn : n ≤ 3 + hdg.data.length)
    (hm : isPrefCI (('#' :: '#' :: ' ' :: p).take n)
      (('#' :: '#' :: ' ' :: hdg.data).take n) = false) :
    (hdg, t).2 = "" ∨ (goodText (hdg, t).2 ∧ hashFreeCI (hdg, t).1.data ∧
      ∃ m, m ≤ 3 + (hdg, t).1.data.length ∧
        isPrefCI (('#' :: '#' :: ' ' :: p).take m)
          (('#' :: '#' :: ' ' :: (hdg, t).1.data).take m) = false) :=
  Or.inr ⟨hg, hashFreeCI_dec _ hh, n, hn, hm⟩

/-- Extraction of the What Went Well answer from any artifact whose answers
are each empty or good. -/
theorem extractG_wentWell (now : Review.DateM) (completed : List Review.ReviewItem)
    (ans : Review.Reflections)
    (hdate : goodLine now.dateStr)
    (hitems : ∀ it ∈ completed, goodLine it.id ∧ goodLine it.title)
    (hiso : goodLine now.iso)
    (o1 : okText ans.wentWell) (o2 : okText ans.didntGoWell) (o3 : okText ans.blockers)
    (o4 : okText ans.learnings) (o5 : okText ans.adjustments) :
    Review.extractSection (Review.reviewMarkdown now completed ans) Review.hWentWell
      = ans.wentWell := by
  rcases o1 with he | hg
  · rw [he]
    refine extractSection_miss_of_skip now completed ans _ _ hpatW hdate hitems hiso ?_
      (by decide) (by decide)
    intro b hb
    unfold renderedBlocks at hb
    by_cases hlen : (Review.sectionBlocks ans).length > 0
    · rw [if_pos hlen, sectionBlocks_eq] at hb
      refine skipChunk_of_mem_filterMap _ (reviewPairs ans) ?_ b hb
      intro pr hpr
      unfold reviewPairs at hpr
      simp only [List.mem_cons, List.not_mem_nil, or_false] at hpr
      rcases hpr with rfl | rfl | rfl | rfl | rfl
      · exact Or.inl he
      · rcases o2 with he2 | hg2
        · exact Or.inl he2
        · exact okBundle _ _ _ hg2 (by decide) 9 (by decide) (by decide)
      · rcases o3 with he3 | hg3
        · exact Or.inl he3
        · exact okBundle _ _ _ hg3 (by decide) 4 (by decide) (by decide)
      · rcases o4 with he4 | hg4
        · exact Or.inl he4
        · exact okBundle _ _ _ hg4 (by decide) 4 (by decide) (by decide)
      · rcases o5 with he5 | hg5
        · exact Or.inl he5
        · exact okBundle _ _ _ hg5 (by decide) 4 (by decide) (by decide)
    · rw [if_neg hlen] at hb
      simp only [List.mem_cons, List.not_mem_nil, or_false] at hb
      subst hb
      exact skipChunk_blockOf _ "Reflections" "_No reflections recorded_" 4
        (hashFreeCI_dec _ (by decide)) (hashFreeCI_dec _ (by decide)) (by decide) (by decide)
  · exact extractSection_hit_of_split now completed ans Review.hWentWell ans.wentWell _
      hpatW []
      [(Review.hDidnt, ans.didntGoWell), (Review.hBlockers, ans.blockers),
       (Review.hLearnings, ans.learnings), (Review.hAdjust, ans.adjustments)]
      rfl hdate hitems hg
      (fun b hb => absurd hb (by simp)) (by decide) (by decide)

/-- Extraction of the What Didnt Go Well answer from any artifact whose
answers are each empty or good. -/
theorem extractG_didnt (now : Review.DateM) (completed : List Review.ReviewItem)
    (ans : Review.Reflections)
    (hdate : goodLine now.dateStr)
    (hitems : ∀ it ∈ completed, goodLine it.id ∧ goodLine it.title)
    (hiso : goodLine now.iso)
    (o1 : okText ans.wentWell) (o2 : okText ans.didntGoWell) (o3 : okText ans.blockers)
    (o4 : okText ans.learnings) (o5 : okText ans.adjustments) :
    Review.extractSection (Review.reviewMarkdown now completed ans) Review.hDidnt
      = ans.didntGoWell := by
  rcases o2 with he | hg
  · rw [he]
    refine extractSection_miss_of_skip now completed ans _ _ hpatD hdate hitems hiso ?_
      (by decide) (by decide)
    intro b hb
    unfold renderedBlocks at hb
    by_cases hlen : (Review.sectionBlocks ans).length > 0
    · rw [if_pos hlen, sectionBlocks_eq] at hb
      refine skipChunk_of_mem_filterMap _ (reviewPairs ans) ?_ b hb
      intro pr hpr
      unfold reviewPairs at hpr
      simp only [List.mem_cons, List.not_mem_nil, or_false] at hpr
      rcases hpr with rfl | rfl | rfl | rfl | rfl
      · rcases o1 with he1 | hg1
        · exact Or.inl he1
        · exact okBundle _ _ _ hg1 (by decide) 9 (by decide) (by decide)
      · exact Or.inl he
      · rcases o3 with he3 | hg3
        · exact Or.inl he3
        · exact okBundle _ _ _ hg3 (by decide) 4 (by decide) (by decide)
      · rcases o4 with he4 | hg4
        · exact Or.inl he4
        · exact okBundle _ _ _ hg4 (by decide) 4 (by decide) (by decide)
      · rcases o5 with he5 | hg5
        · exact Or.inl he5
        · exact okBundle _ _ _ hg5 (by decide) 4 (by decide) (by decide)
    · rw [if_neg hlen] at hb
      simp only [List.mem_cons, List.not_mem_nil, or_false] at hb
      subst hb
      exact skipChunk_blockOf _ "Reflections" "_No reflections recorded_" 4
        (hashFreeCI_dec _ (by decide)) (hashFreeCI_dec _ (by decide)) (by decide) (by decide)
  · refine extractSection_hit_of_split now completed ans Review.hDidnt ans.didntGoWell _
      hpatD [(Review.hWentWell, ans.wentWell)]
      [(Review.hBlockers, ans.blockers),
       (Review.hLearnings, ans.learnings), (Review.hAdjust, ans.adjustments)]
      rfl hdate hitems hg ?_ (by decide) (by decide)
    refine skipChunk_of_mem_filterMap _ _ ?_
    intro pr hpr
    simp only [List.mem_cons, List.not_mem_nil, or_false] at hpr
    subst hpr
    rcases o1 with he1 | hg1
    · exact Or.inl he1
    · exact okBundle _ _ _ hg1 (by decide) 9 (by decide) (by decide)

/-- Extraction of the Blockers answer from any artifact whose answers are
each empty or good. -/
theorem extractG_blockers (now : Review.DateM) (completed : List Review.ReviewItem)
    (ans : Review.Reflections)
    (hdate : goodLine now.dateStr)
    (hitems : ∀ it ∈ completed, goodLine it.id ∧ goodLine it.title)
    (hiso : goodLine now.iso)
    (o1 : okText ans.wentWell) (o2 : okText ans.didntGoWell) (o3 : okText ans.blockers)
    (o4 : okText ans.learnings) (o5 : okText ans.adjustments) :
    Review.extractSection (Review.reviewMarkdown now completed ans) Review.hBlockers
      = ans.blockers := by
  rcases o3 with he | hg
  · rw [he]
    refine extractSection_miss_of_skip now completed ans _ _ hpatB hdate hitems hiso ?_
      (by decide) (by decide)
    intro b hb
    unfold renderedBlocks at hb
    by_cases hlen : (Review.sectionBlocks ans).length > 0
    · rw [if_pos hlen, sectionBlocks_eq] at hb
      refine skipChunk_of_mem_filterMap _ (reviewPairs ans) ?_ b hb
      intro pr hpr
      unfold reviewPairs at hpr
      simp only [List.mem_cons, List.not_mem_nil, or_false] at hpr
      rcases hpr with rfl | rfl | rfl | rfl | rfl
      · rcases o1 with he1 | hg1
        · exact Or.inl he1
        · exact okBundle _ _ _ hg1 (by decide) 4 (by decide) (by decide)
      · rcases o2 with he2 | hg2
        · exact Or.inl he2
        · exact okBundle _ _ _ hg2 (by decide) 4 (by decide) (by decide)
      · exact Or.inl he
      · rcases o4 with he4 | hg4
        · exact Or.inl he4
        · exact okBundle _ _ _ hg4 (by decide) 4 (by decide) (by decide)
      · rcases o5 with he5 | hg5
        · exact Or.inl he5
        · exact okBundle _ _ _ hg5 (by decide) 4 (by decide) (by decide)
    · rw [if_neg hlen] at hb
      simp only [List.mem_cons, List.not_mem_nil, or_false] at hb
      subst hb
      exact skipChunk_blockOf _ "Reflections" "_No reflections recorded_" 4
        (hashFreeCI_dec _ (by decide)) (hashFreeCI_dec _ (by decide)) (by decide) (by decide)
  · refine extractSection_hit_of_split now completed ans Review.hBlockers ans.blockers _
      hpatB [(Review.hWentWell, ans.wentWell), (Review.hDidnt, ans.didntGoWell)]
      [(Review.hLearnings, ans.learnings), (Review.hAdjust, ans.adjustments)]
      rfl hdate hitems hg ?_ (by decide) (by decide)
    refine skipChunk_of_mem_filterMap _ _ ?_
    intro pr hpr
    simp only [List.mem_cons, List.not_mem_nil, or_false] at hpr
    rcases hpr with rfl | rfl
    · rcases o1 with he1 | hg1
      · exact Or.inl he1
      · exact okBundle _ _ _ hg1 (by decide) 4 (by decide) (by decide)
    · rcases o2 with he2 | hg2
      · exact Or.inl he2
      · exact okBundle _ _ _ hg2 (by decide) 4 (by decide) (by decide)

/-- Extraction of the Key Learnings answer from any artifact whose answers
are each empty or good. -/
theorem extractG_learnings (now : Review.DateM) (completed : List Review.ReviewItem)
    (ans : Review.Reflections)
    (hdate : goodLine now.dateStr)
    (hitems : ∀ it ∈ completed, goodLine it.id ∧ goodLine it.title)
    (hiso : goodLine now.iso)
    (o1 : okText ans.wentWell) (o2 : okText ans.didntGoWell) (o3 : okText ans.blockers)
    (o4 : okText ans.learnings) (o5 : okText ans.adjustments) :
    Review.extractSection (Review.reviewMarkdown now completed ans) Review.hLearnings
      = ans.learnings := by
  rcases o4 with he | hg
  · rw [he]
    refine extractSection_miss_of_skip now completed ans _ _ hpatL hdate hitems hiso ?_
      (by decide) (by decide)
    intro b hb
    unfold renderedBlocks at hb
    by_cases hlen : (Review.sectionBlocks ans).length > 0
    · rw [if_pos hlen, sectionBlocks_eq] at hb
      refine skipChunk_of_mem_filterMap _ (reviewPairs ans) ?_ b hb
      intro pr hpr
      unfold reviewPairs at hpr
      simp only [List.mem_cons, List.not_mem_nil, or_false] at hpr
      rcases hpr with rfl | rfl | rfl | rfl | rfl
      · rcases o1 with he1 | hg1
        · exact Or.inl he1
        · exact okBundle _ _ _ hg1 (by decide) 4 (by decide) (by decide)
      · rcases o2 with he2 | hg2
        · exact Or.inl he2
        · exact okBundle _ _ _ hg2 (by decide) 4 (by decide) (by decide)
      · rcases o3 with he3 | hg3
        · exact Or.inl he3
        · exact okBundle _ _ _ hg3 (by decide) 4 (by decide) (by decide)
      · exact Or.inl he
      · rcases o5 with he5 | hg5
        · exact Or.inl he5
        · exact okBundle _ _ _ hg5 (by decide) 4 (by decide) (by decide)
    · rw [if_neg hlen] at hb
      simp only [List.mem_cons, List.not_mem_nil, or_false] at hb
      subst hb
      exact skipChunk_blockOf _ "Reflections" "_No reflections recorded_" 4
        (hashFreeCI_dec _ (by decide)) (hashFreeCI_dec _ (by decide)) (by decide) (by decide)
  · refine extractSection_hit_of_split now completed ans Review.hLearnings ans.learnings _
      hpatL [(Review.hWentWell, ans.wentWell), (Review.hDidnt, ans.didntGoWell),
        (Review.hBlockers, ans.blockers)]
      [(Review.hAdjust, ans.adjustments)]
      rfl hdate hitems hg ?_ (by decide) (by decide)
    refine skipChunk_of_mem_filterMap _ _ ?_
    intro pr hpr
    simp only [List.mem_cons, List.not_mem_nil, or_false] at hpr
    rcases hpr with rfl | rfl | rfl
    · rcases o1 with he1 | hg1
      · exact Or.inl he1
      · exact okBundle _ _ _ hg1 (by decide) 4 (by decide) (by decide)
    · rcases o2 with he2 | hg2
      · exact Or.inl he2
      · exact okBundle _ _ _ hg2 (by decide) 4 (by decide) (by decide)
    · rcases o3 with he3 | hg3
      · exact Or.inl he3
      · exact okBundle _ _ _ hg3 (by decide) 4 (by decide) (by decide)

/-- Extraction of the Adjustments answer from any artifact whose answers are
each empty or good. -/
theorem extractG_adjustments (now : Review.DateM) (completed : List Review.ReviewItem)
    (ans : Review.Reflections)
    (hdate : goodLine now.dateStr)
    (hitems : ∀ it ∈ completed, goodLine it.id ∧ goodLine it.title)
    (hiso : goodLine now.iso)
    (o1 : okText ans.wentWell) (o2 : okText ans.didntGoWell) (o3 : okText ans.blockers)
    (o4 : okText ans.learnings) (o5 : okText ans.adjustments) :
    Review.extractSection (Review.reviewMarkdown now completed ans) Review.hAdjust
      = ans.adjustments := by
  rcases o5 with he | hg
  · rw [he]
    refine extractSection_miss_of_skip now completed ans _ _ hpatA hdate hitems hiso ?_
      (by decide) (by decide)
    intro b hb
    unfold renderedBlocks at hb
    by_cases hlen : (Review.sectionBlocks ans).length > 0
    · rw [if_pos hlen, sectionBlocks_eq] at hb
      refine skipChunk_of_mem_filterMap _ (reviewPairs ans) ?_ b hb
      intro pr hpr
      unfold reviewPairs at hpr
      simp only [List.mem_cons, List.not_mem_nil, or_false] at hpr
      rcases hpr with rfl | rfl | rfl | rfl | rfl
      · rcases o1 with he1 | hg1
        · exact Or.inl he1
        · exact okBundle _ _ _ hg1 (by decide) 4 (by decide) (by decide)
      · rcases o2 with he2 | hg2
        · exact Or.inl he2
        · exact okBundle _ _ _ hg2 (by decide) 4 (by decide) (by decide)
      · rcases o3 with he3 | hg3
        · exact Or.inl he3
        · exact okBundle _ _ _ hg3 (by decide) 4 (by decide) (by decide)
      · rcases o4 with he4 | hg4
        · exact Or.inl he4
        · exact okBundle _ _ _ hg4 (by decide) 4 (by decide) (by decide)
      · exact Or.inl he
    · rw [if_neg hlen] at hb
      simp only [List.mem_cons, List.not_mem_nil, or_false] at hb
      subst hb
      exact skipChunk_blockOf _ "Reflections" "_No reflections recorded_" 4
        (hashFreeCI_dec _ (by decide)) (hashFreeCI_dec _ (by decide)) (by decide) (by decide)
  · refine extractSection_hit_of_split now completed ans Review.hAdjust ans.adjustments _
      hpatA [(Review.hWentWell, ans.wentWell), (Review.hDidnt, ans.didntGoWell),
        (Review.hBlockers, ans.blockers), (Review.hLearnings, ans.learnings)]
      []
      rfl hdate hitems hg ?_ (by decide) (by decide)
    refine skipChunk_of_mem_filterMap _ _ ?_
    intro pr hpr
    simp only [List.mem_cons, List.not_mem_nil, or_false] at hpr
    rcases hpr with rfl | rfl | rfl | rfl
    · rcases o1 with he1 | hg1
      · exact Or.inl he1
      · exact okBundle _ _ _ hg1 (by decide) 4 (by decide) (by decide)
    · rcases o2 with he2 | hg2
      · exact Or.inl he2
      · exact okBundle _ _ _ hg2 (by decide) 4 (by decide) (by decide)
    · rcases o3 with he3 | hg3
      · exact Or.inl he3
      · exact okBundle _ _ _ hg3 (by decide) 4 (by decide) (by decide)
    · rcases o4 with he4 | hg4
      · exact Or.inl he4
      · exact okBundle _ _ _ hg4 (by decide) 4 (by decide) (by decide)

/-- C7 (amended): `updateReview(weekId)` on a store whose `weekId` artifact
was rendered from answers that are each absent or well-formed (non-empty,
free of newline, hash, quote, backslash, dollar and backtick, neither
starting nor ending in JS whitespace, not a default placeholder)
re-extracts all five reflection answers exactly and regenerates: the
resulting store maps the CURRENT week — the spawned `safer review` always
writes the current week, even when `weekId` names a past week, whose own
file is then left untouched — to the artifact rebuilt from the same five
answers, with only the metrics table, the completed-items list, the date
line and the generation footer refreshed. -/
theorem updateReview_preserves_reflections
    (reviews : List (String × String)) (archive : List Review.ReviewItem)
    (now0 now1 : Review.DateM) (ans : Review.Reflections) (weekId : String)
    (hfound : Review.lookupReview reviews weekId =
      some (Review.reviewMarkdown now0 (Review.archivedThisWeek archive now0) ans))
    (hdate : goodLine now0.dateStr)
    (hitems : ∀ it ∈ Review.archivedThisWeek archive now0,
      goodLine it.id ∧ goodLine it.title)
    (hiso : goodLine now0.iso)
    (o1 : okText ans.wentWell) (o2 : okText ans.didntGoWell) (o3 : okText ans.blockers)
    (o4 : okText ans.learnings) (o5 : okText ans.adjustments) :
    Review.updateReview reviews archive now1 weekId =
      reviews.filter (fun e => e.1 ≠ Review.weekIdOf now1) ++
        [(Review.weekIdOf now1,
          Review.reviewMarkdown now1 (Review.archivedThisWeek archive now1) ans)] := by
  have e1 := extractG_wentWell now0 (Review.archivedThisWeek archive now0) ans
    hdate hitems hiso o1 o2 o3 o4 o5
  have e2 := extractG_didnt now0 (Review.archivedThisWeek archive now0) ans
    hdate hitems hiso o1 o2 o3 o4 o5
  have e3 := extractG_blockers now0 (Review.archivedThisWeek archive now0) ans
    hdate hitems hiso o1 o2 o3 o4 o5
  have e4 := extractG_learnings now0 (Review.archivedThisWeek archive now0) ans
    hdate hitems hiso o1 o2 o3 o4 o5
  have e5 := extractG_adjustments now0 (Review.archivedThisWeek archive now0) ans
    hdate hitems hiso o1 o2 o3 o4 o5
  unfold Review.updateReview
  rw [hfound]
  show Review.reviewCommand reviews archive now1
      { wentWell := Review.extractSection
          (Review.reviewMarkdown now0 (Review.archivedThisWeek archive now0) ans)
          Review.hWentWell,
        didntGoWell := Review.extractSection
          (Review.reviewMarkdown now0 (Review.archivedThisWeek archive now0) ans)
          Review.hDidnt,
        blockers := Review.extractSection
          (Review.reviewMarkdown now0 (Review.archivedThisWeek archive now0) ans)
          Review.hBlockers,
        learnings := Review.extractSection
          (Review.reviewMarkdown now0 (Review.archivedThisWeek archive now0) ans)
          Review.hLearnings,
        adjustments := Review.extractSection
          (Review.reviewMarkdown now0 (Review.archivedThisWeek archive now0) ans)
          Review.hAdjust } = _
  rw [e1, e2, e3, e4, e5]
  rfl

/-- Witness: regenerating the stored 2025-W50 artifact (only Blockers
answered, no items completed that week) during week 2026-W02 keeps the past
file, writes the current week from the same answers, and preserves the
Blockers text verbatim. -/
theorem updateReview_preserves_reflections_witness :
    Review.updateReview reviews1R [riR] d1R "2025-W50" =
      reviews1R.filter (fun e => e.1 ≠ Review.weekIdOf d1R) ++
        [(Review.weekIdOf d1R,
          Review.reviewMarkdown d1R (Review.archivedThisWeek [riR] d1R) ansPartR)] :=
  updateReview_preserves_reflections reviews1R [riR] d9R d1R ansPartR "2025-W50"
    (by rfl) (by decide) (by decide) (by decide)
    (Or.inl rfl) (Or.inl rfl) (Or.inr (goodText_of_B _ (by decide)))
    (Or.inl rfl) (Or.inl rfl)

set_option maxRecDepth 8000 in
/-- C7 counterexample: a prior Blockers reflection with leading whitespace is
non-default, yet regeneration stores it trimmed — the old artifact contains
the two-space text, the regenerated one holds the trimmed text instead, so
preservation is not verbatim for every non-default prior content. -/
theorem updateReview_trims_prior_reflection :
    strIncludes (Review.reviewMarkdown d0R (Review.archivedThisWeek [riR] d0R) ansTrimR)
        "## Blockers\n\n  x" = true ∧
    (Review.updateReview
        [("2026-W02", Review.reviewMarkdown d0R (Review.archivedThisWeek [riR] d0R) ansTrimR)]
        [riR] d1R "2026-W02").map
        (fun e => (strIncludes e.2 "## Blockers\n\n  x", strIncludes e.2 "## Blockers\n\nx"))
      = [(false, true)] := by decide

end SAFER
